import Mathlib

/-!
# Verification of the lyght-ts file-transport rotation/retention engine

Shallow embedding of the logging library's core components:

* `BackgroundQueue` (src/packages/logger/src/utils/background-queue.ts):
  bounded FIFO task list with a lossy enqueue and a drain loop that
  swallows task failures.
* `FileTransport` (the unified transport, `src/unnamed/part_005`):
  size-based, date-based and hybrid rotation over a single log directory.
* datetime helpers (src/packages/logger/src/utils/datetime.ts) needed by
  the date bucketing and the `maxDays` cleanup.

The filesystem is modelled as a single flat directory: an association
list from file name to file content (`Dir`).  JavaScript `Date` values
are modelled as milliseconds since the Unix epoch (`Int`), and the UTC
calendar conversion done by `Date.prototype.toISOString` is embedded as
the standard civil-from-days algorithm.  The gzip byte transformation of
`zlib` is abstracted by `gzipStr` (file layout, not compressed bytes, is
what the verified properties are about).
-/

/-! ## Background task queue (background-queue.ts) -/

/-- `MAX_QUEUE_SIZE` from constants.ts. -/
def MAX_QUEUE_SIZE : Nat := 1000

/-- A background task, abstracted to an identifier plus whether running it
throws.  The real `BackgroundTask` is `() => Promise<void>`; only the
success/failure outcome is observable to the queue. -/
structure QTask where
  id : Nat
  fails : Bool
deriving DecidableEq, Repr

/-- Running a task: the promise either resolves or rejects.  A rejecting
task corresponds to `Except.error`. -/
def runTask (t : QTask) : Except String Unit :=
  if t.fails then Except.error "Background task failed" else Except.ok ()

/-- `BackgroundQueue.enqueue`: if the queue already holds `MAX_QUEUE_SIZE`
tasks, `shift()` discards the head (oldest) before `push` appends the new
task. -/
def enqueue (q : List QTask) (t : QTask) : List QTask :=
  (if MAX_QUEUE_SIZE ≤ q.length then q.drop 1 else q) ++ [t]

/-- `BackgroundQueue.processQueue`'s drain loop: repeatedly `shift()` the
head task, await it inside `try`/`catch` (the catch swallows the error and
the loop continues), until the queue is empty.  The result records, in
execution order, each task's id together with whether it succeeded; the
function is total — no task failure escapes the loop. -/
def processQueue : List QTask → List (Nat × Bool)
  | [] => []
  | t :: rest =>
    let outcome := match runTask t with
      | Except.ok _ => true
      | Except.error _ => false
    (t.id, outcome) :: processQueue rest

/-- C3. The drain loop executes the tasks one at a time in FIFO enqueue
order, and a throwing task is caught and swallowed: every enqueued task is
still executed, in order, regardless of earlier failures.  In particular
with 3 tasks where task 1 throws, tasks 2 and 3 still execute in order. -/
theorem processQueue_fifo_and_swallows :
    (∀ q : List QTask, (processQueue q).map Prod.fst = q.map QTask.id) ∧
    processQueue [⟨1, true⟩, ⟨2, false⟩, ⟨3, false⟩] =
      [(1, false), (2, true), (3, true)] := by
  constructor
  · intro q
    induction q with
    | nil => rfl
    | cons t rest ih => simp [processQueue, ih]
  · rfl

/-- C4 (theorem). An `enqueue` on a queue at the 1000-task cap discards the
oldest pending task before appending, and any enqueue from a state within
the cap stays within the cap. -/
theorem enqueue_bounded_drops_oldest (q : List QTask) (t : QTask)
    (hle : q.length ≤ MAX_QUEUE_SIZE) :
    (enqueue q t).length ≤ MAX_QUEUE_SIZE ∧
    (q.length = MAX_QUEUE_SIZE → enqueue q t = q.drop 1 ++ [t]) := by
  constructor
  · by_cases h : MAX_QUEUE_SIZE ≤ q.length
    · have hq : q.length = MAX_QUEUE_SIZE := Nat.le_antisymm hle h
      simp only [enqueue, if_pos h, List.length_append, List.length_drop,
        List.length_cons, List.length_nil]
      simp only [MAX_QUEUE_SIZE] at hq ⊢
      omega
    · simp only [enqueue, if_neg h, List.length_append, List.length_cons,
        List.length_nil]
      simp only [MAX_QUEUE_SIZE] at h ⊢
      omega
  · intro hfull
    have h : MAX_QUEUE_SIZE ≤ q.length := Nat.le_of_eq hfull.symm
    simp [enqueue, h]

/-- C4 (witness): a concrete full queue of 1000 tasks. -/
theorem enqueue_bounded_drops_oldest_witness :
    (enqueue (List.replicate 1000 ⟨0, false⟩) ⟨7, false⟩).length ≤ MAX_QUEUE_SIZE ∧
    ((List.replicate 1000 (⟨0, false⟩ : QTask)).length = MAX_QUEUE_SIZE →
      enqueue (List.replicate 1000 ⟨0, false⟩) ⟨7, false⟩ =
        (List.replicate 1000 (⟨0, false⟩ : QTask)).drop 1 ++ [⟨7, false⟩]) :=
  enqueue_bounded_drops_oldest (List.replicate 1000 ⟨0, false⟩) ⟨7, false⟩
    (by rw [List.length_replicate]; decide)

/-! ## Decimal rendering of numbers (JS template-literal interpolation) -/

/-- The character for a decimal digit `n < 10`. -/
def digitChar (n : Nat) : Char := Char.ofNat (48 + n)

/-- Numeric value of a digit character. -/
def digitVal (c : Char) : Nat := c.toNat - 48

/-- Fuel-driven worker for `toDecRev` (structural recursion keeps it
kernel-computable; the fuel is always sufficient since `n / 10 < n`). -/
def toDecRevAux : Nat → Nat → List Char
  | 0, n => [digitChar n]
  | fuel + 1, n =>
    if n < 10 then [digitChar n]
    else digitChar (n % 10) :: toDecRevAux fuel (n / 10)

/-- Decimal digits of `n`, least significant first.  Embeds the decimal
rendering JavaScript performs when a number is interpolated into a
template literal. -/
def toDecRev (n : Nat) : List Char := toDecRevAux n n

theorem toDecRevAux_congr : ∀ (f1 f2 n : Nat), n ≤ f1 → n ≤ f2 →
    toDecRevAux f1 n = toDecRevAux f2 n := by
  intro f1
  induction f1 with
  | zero =>
    intro f2 n h1 _
    interval_cases n
    cases f2 <;> simp [toDecRevAux]
  | succ f ih =>
    intro f2 n h1 h2
    cases f2 with
    | zero =>
      interval_cases n
      simp [toDecRevAux]
    | succ f2' =>
      simp only [toDecRevAux]
      by_cases h : n < 10
      · simp [h]
      · simp only [h, if_false]
        have hdiv : n / 10 < n := Nat.div_lt_self (by omega) (by omega)
        rw [ih f2' (n / 10) (by omega) (by omega)]

/-- The recurrence `toDecRev` satisfies. -/
theorem toDecRev_eq (n : Nat) : toDecRev n =
    if n < 10 then [digitChar n]
    else digitChar (n % 10) :: toDecRev (n / 10) := by
  by_cases h : n < 10
  · rw [if_pos h]
    cases hn : n with
    | zero => rfl
    | succ k =>
      rw [toDecRev, toDecRevAux]
      rw [← hn, if_pos h]
  · rw [if_neg h]
    cases hn : n with
    | zero => omega
    | succ k =>
      rw [toDecRev, toDecRevAux, ← hn, if_neg h, toDecRev]
      have hdiv : n / 10 < n := Nat.div_lt_self (by omega) (by omega)
      rw [toDecRevAux_congr k (n / 10) (n / 10) (by omega) (by omega)]

/-- Decimal rendering of a natural number, e.g. the `${number}` in
`getRotatedFilePath`. -/
def natToString (n : Nat) : String := ⟨(toDecRev n).reverse⟩

/-- Value of a digit list given least significant first (the reverse of
the order `parseInt` reads, matching `toDecRev`). -/
def parseRevDigits : List Char → Nat
  | [] => 0
  | c :: cs => digitVal c + 10 * parseRevDigits cs

theorem digitVal_digitChar {m : Nat} (h : m < 10) : digitVal (digitChar m) = m := by
  interval_cases m <;> rfl

theorem isDigit_digitChar {m : Nat} (h : m < 10) : (digitChar m).isDigit = true := by
  interval_cases m <;> rfl

theorem parseRevDigits_toDecRev (n : Nat) : parseRevDigits (toDecRev n) = n := by
  induction n using Nat.strong_induction_on with
  | _ n ih =>
    by_cases h : n < 10
    · rw [toDecRev_eq, if_pos h]
      simp [parseRevDigits, digitVal_digitChar h]
    · rw [toDecRev_eq, if_neg h]
      simp only [parseRevDigits]
      rw [ih (n / 10) (Nat.div_lt_self (by omega) (by omega)),
        digitVal_digitChar (Nat.mod_lt n (by omega))]
      omega

theorem toDecRev_ne_nil (n : Nat) : toDecRev n ≠ [] := by
  rw [toDecRev_eq]
  by_cases h : n < 10 <;> simp [h]

theorem toDecRev_all_digits (n : Nat) : ∀ c ∈ toDecRev n, c.isDigit = true := by
  induction n using Nat.strong_induction_on with
  | _ n ih =>
    by_cases h : n < 10
    · rw [toDecRev_eq, if_pos h]
      simp [isDigit_digitChar h]
    · rw [toDecRev_eq, if_neg h]
      simp only [List.mem_cons, forall_eq_or_imp]
      exact ⟨isDigit_digitChar (Nat.mod_lt n (by omega)),
        ih (n / 10) (Nat.div_lt_self (by omega) (by omega))⟩

theorem toDecRev_injective {m n : Nat} (h : toDecRev m = toDecRev n) : m = n := by
  have hm := parseRevDigits_toDecRev m
  rw [h, parseRevDigits_toDecRev n] at hm
  exact hm.symm

/-! ## Generic string and list helpers -/

/-- UTF-8 byte length of a string: `Buffer.byteLength(s)` with the default
`utf8` encoding. -/
def byteLen (s : String) : Nat := s.data.foldl (fun n c => n + c.utf8Size) 0

/-- JavaScript `String.prototype.startsWith`. -/
def strStartsWith (s pre : String) : Bool := pre.data.isPrefixOf s.data

theorem isPrefixOf_append_self (l₁ l₂ : List Char) :
    l₁.isPrefixOf (l₁ ++ l₂) = true := by
  induction l₁ with
  | nil => simp [List.isPrefixOf]
  | cons c cs ih => simp [List.isPrefixOf, ih]

theorem takeWhile_append_of_all {p : Char → Bool} {l₁ : List Char}
    (h : ∀ c ∈ l₁, p c = true) (l₂ : List Char) :
    (l₁ ++ l₂).takeWhile p = l₁ ++ l₂.takeWhile p := by
  induction l₁ with
  | nil => rfl
  | cons c cs ih =>
    simp only [List.cons_append, List.takeWhile_cons]
    rw [h c (by simp)]
    simp only [ite_true]
    rw [ih (fun c hc => h c (by simp [hc]))]

/-! ## The filesystem model: one flat directory -/

/-- A directory: an association list from file name to file content.
`utils/fs.ts` operations are embedded against this representation. -/
abbrev Dir := List (String × String)

/-- First-match lookup of a file's content. -/
def dirLookup (d : Dir) (name : String) : Option String :=
  match d with
  | [] => none
  | (k, v) :: rest => if k = name then some v else dirLookup rest name

/-- Remove a file (no-op when absent): `deleteFile` of fs.ts. -/
def dirDelete (d : Dir) (name : String) : Dir :=
  d.filter (fun p => p.1 != name)

/-- Create or overwrite a file: the effect of writing `content` at `name`. -/
def dirWrite (d : Dir) (name content : String) : Dir :=
  (name, content) :: dirDelete d name

/-- `exists` of fs.ts. -/
def dirExists (d : Dir) (name : String) : Bool := (dirLookup d name).isSome

/-- `moveFile` of fs.ts: no-op when the source is absent, otherwise
`fs.renameSync` (which overwrites the destination). -/
def dirMove (d : Dir) (oldName newName : String) : Dir :=
  match dirLookup d oldName with
  | none => d
  | some c => dirWrite (dirDelete d oldName) newName c

/-- Append data to a file, creating it when absent: the effect of writing
on an append-mode (`'a'` flag) stream. -/
def dirAppend (d : Dir) (name content : String) : Dir :=
  dirWrite d name ((dirLookup d name).getD "" ++ content)

/-- Ensure a file exists (empty when fresh): the effect of opening an
append-mode write stream, `createWriteStream(path, flags: 'a')`. -/
def dirEnsure (d : Dir) (name : String) : Dir :=
  match dirLookup d name with
  | some _ => d
  | none => dirWrite d name ""

/-- `listFiles` of fs.ts: the names in the directory. -/
def listFiles (d : Dir) : List String := d.map Prod.fst

theorem dirLookup_delete (d : Dir) (n m : String) :
    dirLookup (dirDelete d n) m = if n = m then none else dirLookup d m := by
  induction d with
  | nil => simp [dirDelete, dirLookup]
  | cons p rest ih =>
    obtain ⟨k, v⟩ := p
    by_cases hkn : k = n
    · subst hkn
      have hf : dirDelete ((k, v) :: rest) k = dirDelete rest k := by
        simp [dirDelete]
      rw [hf, ih]
      by_cases hkm : k = m
      · simp [hkm]
      · simp [hkm, dirLookup]
    · have hf : dirDelete ((k, v) :: rest) n = (k, v) :: dirDelete rest n := by
        simp [dirDelete, hkn]
      rw [hf]
      by_cases hkm : k = m
      · subst hkm
        have hnm : ¬(n = k) := fun hh => hkn hh.symm
        simp [dirLookup, hnm]
      · simp [dirLookup, hkm, ih]

theorem dirLookup_write (d : Dir) (n c : String) (m : String) :
    dirLookup (dirWrite d n c) m = if n = m then some c else dirLookup d m := by
  by_cases h : n = m
  · simp [dirWrite, dirLookup, h]
  · simp [dirWrite, dirLookup, h, dirLookup_delete]

theorem dirLookup_move_of_some {d : Dir} {oldN : String} {c : String}
    (h : dirLookup d oldN = some c) (newN m : String) :
    dirLookup (dirMove d oldN newN) m =
      if newN = m then some c else if oldN = m then none else dirLookup d m := by
  simp only [dirMove, h, dirLookup_write, dirLookup_delete]

theorem dirLookup_move_of_none {d : Dir} {oldN : String}
    (h : dirLookup d oldN = none) (newN : String) :
    dirMove d oldN newN = d := by
  simp [dirMove, h]

/-! ## FileTransport configuration (part_005) -/

/-- `RotationTrigger` of the unified transport. -/
inductive RotationTrigger
  | size
  | date
  | hybrid
deriving DecidableEq, Repr

/-- The configuration fields of `FileTransport` fixed at construction.
In the flat-directory model `filePath` is the live file's name (for size
mode) — the source's `getBaseName(filePath) + getExtension(filePath)`
recovers exactly this name component.  The truthiness checks
`if (this.maxFiles)` / `if (this.maxDays)` of the source are modelled by
comparing the `Nat` field against `0` (JavaScript `0` and `undefined` are
both falsy there). -/
structure FileTransport where
  filePath : String
  fileNamePattern : String
  rotation : RotationTrigger
  maxFileSize : Nat
  compress : Bool
  maxFiles : Nat
  maxDays : Nat

/-- `LOG_FILE_EXTENSION` from constants.ts. -/
def LOG_FILE_EXTENSION : String := ".log"

/-- `GZIP_FILE_EXTENSION` from constants.ts. -/
def GZIP_FILE_EXTENSION : String := ".gz"

/-- `FileTransport.getRotatedFilePath`:
`` `${this.filePath}.${number}${extension}` `` where `extension` is `.gz`
when compression is enabled. -/
def getRotatedFilePath (t : FileTransport) (number : Nat) : String :=
  t.filePath ++ "." ++ natToString number ++
    (if t.compress then GZIP_FILE_EXTENSION else "")

/-- `FILE_NUMBER_REGEX` (`\.(\d+)(\.gz)?$`) applied to a file name:
returns the captured generation number.  The JavaScript regex matches a
trailing `.N` or `.N.gz` (digits required, leftmost match is the last
such suffix); on the reversed character list this reads: strip a final
`.gz` if present, then demand a nonempty digit run immediately preceded
by a dot. -/
def fileNumberMatch (s : String) : Option Nat :=
  let r := s.data.reverse
  let r' := if ['z', 'g', '.'].isPrefixOf r then r.drop 3 else r
  let ds := r'.takeWhile Char.isDigit
  if ds.isEmpty then none
  else
    match r'.drop ds.length with
    | '.' :: _ => some (parseRevDigits ds)
    | _ => none

/-- `FileTransport.extractFileNumber`: `null` unless the file name starts
with the live file's base name, else the `FILE_NUMBER_REGEX` capture. -/
def extractFileNumber (filename basename : String) : Option Nat :=
  if strStartsWith filename basename then fileNumberMatch filename else none

/-- The gzip byte transformation of `zlib.createGzip` piped through.  The
verified properties are about file layout, not compressed bytes, so the
content transformation is abstracted as the identity. -/
def gzipStr (s : String) : String := s

/-- `compressFile(path, deleteOriginal: true)` of fs.ts: when `path`
exists, pipe its content through gzip into `path + ".gz"` — note the
output stream is created by `createWriteStream(gzipPath)` whose default
options are `flags: 'a'`, i.e. append mode — then delete the original. -/
def compressFileM (d : Dir) (p : String) : Dir :=
  match dirLookup d p with
  | none => d
  | some c => dirDelete (dirAppend d (p ++ GZIP_FILE_EXTENSION) (gzipStr c)) p

/-- The JS `Array.prototype.sort((a, b) => b - a)`: numeric descending. -/
def sortDesc (l : List Nat) : List Nat := l.insertionSort (fun a b => b ≤ a)

/-- One iteration of the rotation loop of `rotateSizeBasedFile`: delete
the generation-`num` file when `num + 1` overflows `maxFiles` (guarded by
the truthiness of `maxFiles`), otherwise rename it to generation
`num + 1`. -/
def shiftStep (t : FileTransport) (s : Dir) (num : Nat) : Dir :=
  if t.maxFiles ≠ 0 ∧ num + 1 > t.maxFiles then
    dirDelete s (getRotatedFilePath t num)
  else
    dirMove s (getRotatedFilePath t num) (getRotatedFilePath t (num + 1))

/-- The directory effect of `FileTransport.rotateSizeBasedFile`: collect
the generation numbers of the files whose name starts with the live
file's name and carries a numeric suffix, sort them descending, shift
each one up a slot (or drop it past `maxFiles`), then move the live file
to generation 1 and compress it when `compress` is set.  (The
surrounding stream close/reopen is modelled separately in the stateful
wrapper.) -/
def rotateSizeDir (t : FileTransport) (d : Dir) : Dir :=
  let basename := t.filePath
  let existingNumbers :=
    sortDesc ((listFiles d).filterMap (fun f => extractFileNumber f basename))
  let d1 := existingNumbers.foldl (shiftStep t) d
  if dirExists d1 t.filePath then
    let d2 := dirMove d1 t.filePath (getRotatedFilePath t 1)
    if t.compress then compressFileM d2 (getRotatedFilePath t 1) else d2
  else d1

/-- A directory holding exactly the live file plus the rotated
generations `gens` (generation number paired with that file's content). -/
def mkSizeDir (t : FileTransport) (live : String) (gens : List (Nat × String)) : Dir :=
  (t.filePath, live) :: gens.map (fun gc => (getRotatedFilePath t gc.1, gc.2))

/-- Association-list lookup with numeric keys, for stating what the
post-rotation directory holds. -/
def lookupNat : List (Nat × String) → Nat → Option String
  | [], _ => none
  | (k, v) :: rest, n => if k = n then some v else lookupNat rest n

/-! ## Parsing facts about rotated-file names -/

theorem beq_z_of_digit {c : Char} (h : c.isDigit = true) : ('z' == c) = false := by
  rw [beq_eq_false_iff_ne]
  intro hz
  rw [← hz] at h
  simp [Char.isDigit] at h

/-- Any name of the form `pre ++ "." ++ digits-of-g` is matched by
`FILE_NUMBER_REGEX` with capture `g`. -/
theorem fileNumberMatch_dot_num (pre : String) (g : Nat) :
    fileNumberMatch (pre ++ "." ++ natToString g) = some g := by
  have hrev : (pre ++ "." ++ natToString g).data.reverse
      = toDecRev g ++ '.' :: pre.data.reverse := by
    simp [String.data_append, natToString]
  simp only [fileNumberMatch]
  rw [hrev]
  have hpre : (['z', 'g', '.'].isPrefixOf (toDecRev g ++ '.' :: pre.data.reverse))
      = false := by
    obtain ⟨c, cs, hcons⟩ : ∃ c cs, toDecRev g = c :: cs := by
      cases hg : toDecRev g with
      | nil => exact absurd hg (toDecRev_ne_nil g)
      | cons c cs => exact ⟨c, cs, rfl⟩
    rw [hcons]
    have hc : c.isDigit = true := toDecRev_all_digits g c (by rw [hcons]; simp)
    simp [List.isPrefixOf, beq_z_of_digit hc]
  rw [hpre]
  simp only [Bool.false_eq_true, if_false]
  have htake : (toDecRev g ++ '.' :: pre.data.reverse).takeWhile Char.isDigit
      = toDecRev g := by
    rw [takeWhile_append_of_all (toDecRev_all_digits g)]
    simp [List.takeWhile_cons]
  rw [htake]
  have hne : (toDecRev g).isEmpty = false := by
    cases hg : toDecRev g with
    | nil => exact absurd hg (toDecRev_ne_nil g)
    | cons c cs => rfl
  rw [hne]
  simp only [Bool.false_eq_true, if_false]
  rw [List.drop_left]
  simp [parseRevDigits_toDecRev]

/-- With compression off, `getRotatedFilePath t g` parses back to `g`. -/
theorem fileNumberMatch_rotated (t : FileTransport) (hc : t.compress = false)
    (g : Nat) : fileNumberMatch (getRotatedFilePath t g) = some g := by
  have h : getRotatedFilePath t g = t.filePath ++ "." ++ natToString g := by
    simp [getRotatedFilePath, hc, String.append_empty]
  rw [h, fileNumberMatch_dot_num]

/-- Rotated-file names start with the live file's name. -/
theorem strStartsWith_rotated (t : FileTransport) (g : Nat) :
    strStartsWith (getRotatedFilePath t g) t.filePath = true := by
  have h : (getRotatedFilePath t g).data = t.filePath.data ++
      ('.' :: (toDecRev g).reverse ++
        (if t.compress then GZIP_FILE_EXTENSION else "").data) := by
    by_cases hcp : t.compress <;>
      simp [getRotatedFilePath, hcp, String.data_append, natToString]
  rw [strStartsWith, h, isPrefixOf_append_self]

theorem strStartsWith_self (s : String) : strStartsWith s s = true := by
  have h := isPrefixOf_append_self s.data []
  rw [List.append_nil] at h
  rw [strStartsWith, h]

/-- With compression off, distinct generations have distinct names. -/
theorem getRotatedFilePath_inj (t : FileTransport) (hc : t.compress = false)
    {a b : Nat} (h : getRotatedFilePath t a = getRotatedFilePath t b) : a = b := by
  have ha := fileNumberMatch_rotated t hc a
  rw [h, fileNumberMatch_rotated t hc b] at ha
  exact (Option.some.inj ha).symm

/-- When the live file's name itself carries no numeric suffix, no rotated
name collides with it. -/
theorem getRotatedFilePath_ne_filePath (t : FileTransport)
    (hc : t.compress = false) (hfp : fileNumberMatch t.filePath = none)
    (g : Nat) : getRotatedFilePath t g ≠ t.filePath := by
  intro h
  have ha := fileNumberMatch_rotated t hc g
  rw [h, hfp] at ha
  exact Option.noConfusion ha

theorem pairwise_gt_of_sorted_nodup {ns : List Nat}
    (hs : List.Pairwise (fun a b => b ≤ a) ns) (hd : ns.Nodup) :
    List.Pairwise (fun a b => b < a) ns := by
  induction ns with
  | nil => exact List.Pairwise.nil
  | cons a l ih =>
    cases hs with
    | cons ha hs' =>
      cases hd with
      | cons hna hd' =>
        exact List.Pairwise.cons
          (fun b hb => lt_of_le_of_ne (ha b hb) (fun he => hna b hb he.symm))
          (ih hs' hd')

/-! ## The generation-shift loop of `rotateSizeBasedFile` -/

/-- Files whose names are not of rotated form are untouched by the shift
loop. -/
theorem shiftFold_frame (t : FileTransport) (ns : List Nat) :
    ∀ (s : Dir) (q : String), (∀ k, q ≠ getRotatedFilePath t k) →
      dirLookup (ns.foldl (shiftStep t) s) q = dirLookup s q := by
  induction ns with
  | nil => intro s q _; rfl
  | cons n rest ih =>
    intro s q hq
    rw [List.foldl_cons, ih _ q hq]
    unfold shiftStep
    by_cases hover : t.maxFiles ≠ 0 ∧ n + 1 > t.maxFiles
    · rw [if_pos hover, dirLookup_delete,
        if_neg (fun h => hq n h.symm)]
    · rw [if_neg hover]
      cases hlk : dirLookup s (getRotatedFilePath t n) with
      | none => rw [dirLookup_move_of_none hlk]
      | some c =>
        rw [dirLookup_move_of_some hlk,
          if_neg (fun h => hq (n + 1) h.symm),
          if_neg (fun h => hq n h.symm)]

/-- Complete characterisation of the shift loop: processing the strictly
descending list `ns` of existing generations moves generation `g` to
`g + 1` (when `g + 1` stays within `maxFiles`), deletes it otherwise, and
touches nothing else. -/
theorem shiftFold_lookup (t : FileTransport) (hc : t.compress = false)
    (hM : 0 < t.maxFiles) :
    ∀ (ns : List Nat), List.Pairwise (fun a b => b < a) ns →
      (∀ n ∈ ns, 1 ≤ n) →
      ∀ s : Dir,
        (∀ n ∈ ns, (dirLookup s (getRotatedFilePath t n)).isSome = true) →
      ∀ m : Nat,
        dirLookup (ns.foldl (shiftStep t) s) (getRotatedFilePath t m) =
          if m - 1 ∈ ns ∧ m ≤ t.maxFiles ∧ 2 ≤ m then
            dirLookup s (getRotatedFilePath t (m - 1))
          else if m ∈ ns then none
          else dirLookup s (getRotatedFilePath t m) := by
  intro ns
  induction ns with
  | nil =>
    intro _ _ s _ m
    simp
  | cons n rest ih =>
    intro hdesc hpos s hpres m
    obtain ⟨hn_rest, hdesc'⟩ := List.pairwise_cons.mp hdesc
    have hn1 : 1 ≤ n := hpos n (by simp)
    have hnotmem : n ∉ rest := fun h => lt_irrefl n (hn_rest n h)
    obtain ⟨c, hpc⟩ : ∃ c, dirLookup s (getRotatedFilePath t n) = some c :=
      Option.isSome_iff_exists.mp (hpres n (by simp))
    have hs'_other : ∀ k, k ≠ n → k ≠ n + 1 →
        dirLookup (shiftStep t s n) (getRotatedFilePath t k)
          = dirLookup s (getRotatedFilePath t k) := by
      intro k hk hk1
      unfold shiftStep
      by_cases hover : t.maxFiles ≠ 0 ∧ n + 1 > t.maxFiles
      · rw [if_pos hover, dirLookup_delete,
          if_neg (fun h => hk (getRotatedFilePath_inj t hc h).symm)]
      · rw [if_neg hover, dirLookup_move_of_some hpc,
          if_neg (fun h => hk1 (getRotatedFilePath_inj t hc h).symm),
          if_neg (fun h => hk (getRotatedFilePath_inj t hc h).symm)]
    have hs'_n : dirLookup (shiftStep t s n) (getRotatedFilePath t n) = none := by
      unfold shiftStep
      by_cases hover : t.maxFiles ≠ 0 ∧ n + 1 > t.maxFiles
      · rw [if_pos hover, dirLookup_delete, if_pos rfl]
      · rw [if_neg hover, dirLookup_move_of_some hpc,
          if_neg (fun h => by
            have := getRotatedFilePath_inj t hc h
            omega),
          if_pos rfl]
    have hpres' : ∀ k ∈ rest,
        (dirLookup (shiftStep t s n) (getRotatedFilePath t k)).isSome = true := by
      intro k hk
      have hklt : k < n := hn_rest k hk
      rw [hs'_other k (by omega) (by omega)]
      exact hpres k (by simp [hk])
    rw [List.foldl_cons,
      ih hdesc' (fun k hk => hpos k (by simp [hk])) (shiftStep t s n) hpres' m]
    by_cases hm1 : m = n + 1
    · subst hm1
      have hsub : n + 1 - 1 = n := by omega
      rw [hsub]
      have hnr : (n ∈ rest ∧ n + 1 ≤ t.maxFiles ∧ 2 ≤ n + 1) = False := by
        simp only [eq_iff_iff, iff_false]
        intro hcon
        exact hnotmem hcon.1
      have hn1r : n + 1 ∉ rest := fun h => by
        have := hn_rest (n + 1) h
        omega
      rw [if_neg (fun hcon : n ∈ rest ∧ _ ∧ _ => hnotmem hcon.1),
        if_neg hn1r]
      by_cases hle : n + 1 ≤ t.maxFiles
      · have hover : ¬(t.maxFiles ≠ 0 ∧ n + 1 > t.maxFiles) := by omega
        rw [if_pos ⟨by simp, hle, by omega⟩]
        unfold shiftStep
        rw [if_neg hover, dirLookup_move_of_some hpc, if_pos rfl, hpc]
      · have hover : t.maxFiles ≠ 0 ∧ n + 1 > t.maxFiles := by omega
        rw [if_neg (fun hcon : _ ∧ n + 1 ≤ t.maxFiles ∧ _ => hle hcon.2.1)]
        have hmem : n + 1 ∈ n :: rest ↔ False := by
          simp only [List.mem_cons, iff_false]
          rintro (h | h)
          · omega
          · exact hn1r h
        rw [if_neg (hmem.mp)]
        unfold shiftStep
        rw [if_pos hover, dirLookup_delete,
          if_neg (fun h => by
            have := getRotatedFilePath_inj t hc h
            omega)]
    · by_cases hm2 : m = n
      · subst hm2
        by_cases hB : m - 1 ∈ rest ∧ m ≤ t.maxFiles ∧ 2 ≤ m
        · have hm1lt : m - 1 < m := hn_rest _ hB.1
          rw [if_pos hB, hs'_other (m - 1) (by omega) (by omega),
            if_pos ⟨by simp [hB.1], hB.2.1, hB.2.2⟩]
        · have hBc : ¬(m - 1 ∈ m :: rest ∧ m ≤ t.maxFiles ∧ 2 ≤ m) := by
            intro hcon
            rcases List.mem_cons.mp hcon.1 with h | h
            · omega
            · exact hB ⟨h, hcon.2⟩
          rw [if_neg hB, if_neg hBc, if_neg hnotmem, if_pos (by simp), hs'_n]
      · have hiff1 : (m - 1 ∈ rest) ↔ (m - 1 ∈ n :: rest) := by
          simp only [List.mem_cons]
          constructor
          · exact fun h => Or.inr h
          · rintro (h | h)
            · omega
            · exact h
        have hiff2 : (m ∈ rest) ↔ (m ∈ n :: rest) := by
          simp only [List.mem_cons]
          constructor
          · exact fun h => Or.inr h
          · rintro (h | h)
            · exact absurd h hm2
            · exact h
        by_cases hA : m - 1 ∈ rest ∧ m ≤ t.maxFiles ∧ 2 ≤ m
        · have hm1lt : m - 1 < n := hn_rest _ hA.1
          rw [if_pos hA, if_pos ⟨hiff1.mp hA.1, hA.2⟩,
            hs'_other (m - 1) (by omega) (by omega)]
        · have hA2 : ¬(m - 1 ∈ n :: rest ∧ m ≤ t.maxFiles ∧ 2 ≤ m) := by
            intro hcon
            exact hA ⟨hiff1.mpr hcon.1, hcon.2⟩
          rw [if_neg hA, if_neg hA2]
          by_cases hmr : m ∈ rest
          · rw [if_pos hmr, if_pos (hiff2.mp hmr)]
          · rw [if_neg hmr, if_neg (fun h => hmr (hiff2.mpr h)),
              hs'_other m hm2 hm1]

/-! ## C1: size-based rotation shifts generations highest-to-lowest -/

theorem lookupNat_isSome_iff (gens : List (Nat × String)) (n : Nat) :
    (lookupNat gens n).isSome = true ↔ n ∈ gens.map Prod.fst := by
  induction gens with
  | nil => simp [lookupNat]
  | cons gc rest ih =>
    obtain ⟨k, v⟩ := gc
    by_cases hk : k = n
    · subst hk
      simp [lookupNat]
    · rw [lookupNat, if_neg hk, ih]
      simp only [List.map_cons, List.mem_cons]
      constructor
      · exact fun h => Or.inr h
      · rintro (h | h)
        · exact absurd h.symm hk
        · exact h

theorem dirLookup_map_gens (t : FileTransport) (hc : t.compress = false)
    (gens : List (Nat × String)) (n : Nat) :
    dirLookup (gens.map (fun gc => (getRotatedFilePath t gc.1, gc.2)))
        (getRotatedFilePath t n) = lookupNat gens n := by
  induction gens with
  | nil => rfl
  | cons gc rest ih =>
    obtain ⟨k, v⟩ := gc
    by_cases hk : k = n
    · subst hk
      simp [dirLookup, lookupNat]
    · have hne : getRotatedFilePath t k ≠ getRotatedFilePath t n :=
        fun h => hk (getRotatedFilePath_inj t hc h)
      simp only [List.map_cons, dirLookup, lookupNat, if_neg hne, if_neg hk]
      exact ih

theorem dirLookup_mkSizeDir_rotated (t : FileTransport) (hc : t.compress = false)
    (hfp : fileNumberMatch t.filePath = none) (live : String)
    (gens : List (Nat × String)) (n : Nat) :
    dirLookup (mkSizeDir t live gens) (getRotatedFilePath t n) = lookupNat gens n := by
  simp only [mkSizeDir, dirLookup]
  rw [if_neg (fun h : t.filePath = getRotatedFilePath t n =>
    getRotatedFilePath_ne_filePath t hc hfp n h.symm)]
  exact dirLookup_map_gens t hc gens n

theorem dirLookup_mkSizeDir_live (t : FileTransport) (live : String)
    (gens : List (Nat × String)) :
    dirLookup (mkSizeDir t live gens) t.filePath = some live := by
  simp [mkSizeDir, dirLookup]

theorem existingNumbers_mkSizeDir (t : FileTransport) (hc : t.compress = false)
    (hfp : fileNumberMatch t.filePath = none) (live : String)
    (gens : List (Nat × String)) :
    (listFiles (mkSizeDir t live gens)).filterMap
        (fun f => extractFileNumber f t.filePath) = gens.map Prod.fst := by
  simp only [mkSizeDir, listFiles, List.map_cons, List.filterMap_cons]
  have hhead : extractFileNumber t.filePath t.filePath = none := by
    rw [extractFileNumber, if_pos (strStartsWith_self t.filePath), hfp]
  rw [hhead, List.map_map, List.filterMap_map]
  have hcongr : ∀ gc ∈ gens,
      (fun f => extractFileNumber f t.filePath)
          ((fun gc : Nat × String => (getRotatedFilePath t gc.1, gc.2)) gc).1
        = some gc.1 := by
    intro gc _
    simp only [extractFileNumber]
    rw [if_pos (strStartsWith_rotated t gc.1), fileNumberMatch_rotated t hc]
  calc List.filterMap
        ((fun f => extractFileNumber f t.filePath) ∘
          (Prod.fst ∘ fun gc : Nat × String => (getRotatedFilePath t gc.1, gc.2))) gens
      = List.filterMap (fun gc : Nat × String => some gc.1) gens := by
        apply List.filterMap_congr
        intro gc hgc
        exact hcongr gc hgc
    _ = gens.map Prod.fst := by
        rw [show (fun gc : Nat × String => some gc.1) = some ∘ Prod.fst from rfl,
          List.filterMap_eq_map]

/-- C1. In size-based rotation, for every set of existing rotated
generations (distinct generation numbers `≥ 1`, live file present,
`maxFiles` enabled, compression off so that the rotated names are the
plain `.N` of the claim), the rotation task processes the generations
from highest to lowest: generation `g` is deleted when `g + 1` exceeds
`maxFiles` and renamed to `g + 1` otherwise, and afterwards the
just-closed live file is renamed to generation 1.  The post-state is
characterised completely: slot 1 holds the old live content, slot `m`
(for `2 ≤ m ≤ maxFiles`) holds what slot `m - 1` held, everything past
`maxFiles` is gone, and the live name is freed (the task then reopens an
empty live stream) — no rotated file is duplicated or lost except by
overflow deletion. -/
theorem rotateSizeBasedFile_shifts_generations (t : FileTransport)
    (live : String) (gens : List (Nat × String))
    (hc : t.compress = false) (hM : 0 < t.maxFiles)
    (hfp : fileNumberMatch t.filePath = none)
    (hnd : (gens.map Prod.fst).Nodup)
    (hpos : ∀ g ∈ gens.map Prod.fst, 1 ≤ g) :
    (∀ m : Nat, 1 ≤ m →
      dirLookup (rotateSizeDir t (mkSizeDir t live gens)) (getRotatedFilePath t m) =
        if m = 1 then some live
        else if m ≤ t.maxFiles then lookupNat gens (m - 1)
        else none) ∧
    dirLookup (rotateSizeDir t (mkSizeDir t live gens)) t.filePath = none := by
  have hnums : (listFiles (mkSizeDir t live gens)).filterMap
      (fun f => extractFileNumber f t.filePath) = gens.map Prod.fst :=
    existingNumbers_mkSizeDir t hc hfp live gens
  have hperm : List.Perm (sortDesc (gens.map Prod.fst)) (gens.map Prod.fst) :=
    List.perm_insertionSort _ _
  have hmemns : ∀ x, x ∈ sortDesc (gens.map Prod.fst) ↔ x ∈ gens.map Prod.fst :=
    fun x => hperm.mem_iff
  have hndns : (sortDesc (gens.map Prod.fst)).Nodup := hperm.symm.nodup hnd
  have hsorted : List.Pairwise (fun a b => b < a) (sortDesc (gens.map Prod.fst)) :=
    pairwise_gt_of_sorted_nodup (List.sorted_insertionSort _ _) hndns
  have hposns : ∀ n ∈ sortDesc (gens.map Prod.fst), 1 ≤ n :=
    fun n hn => hpos n ((hmemns n).mp hn)
  have hpres : ∀ n ∈ sortDesc (gens.map Prod.fst),
      (dirLookup (mkSizeDir t live gens) (getRotatedFilePath t n)).isSome = true := by
    intro n hn
    rw [dirLookup_mkSizeDir_rotated t hc hfp]
    exact (lookupNat_isSome_iff gens n).mpr ((hmemns n).mp hn)
  have hfold := shiftFold_lookup t hc hM (sortDesc (gens.map Prod.fst)) hsorted
    hposns (mkSizeDir t live gens) hpres
  have hfp_ne : ∀ k, t.filePath ≠ getRotatedFilePath t k :=
    fun k h => getRotatedFilePath_ne_filePath t hc hfp k h.symm
  have hlive1 : dirLookup ((sortDesc (gens.map Prod.fst)).foldl (shiftStep t)
      (mkSizeDir t live gens)) t.filePath = some live := by
    rw [shiftFold_frame t _ _ t.filePath hfp_ne, dirLookup_mkSizeDir_live]
  have hlookupNone : ∀ x, x ∉ sortDesc (gens.map Prod.fst) →
      lookupNat gens x = none := by
    intro x hx
    cases hl : lookupNat gens x with
    | none => rfl
    | some c =>
      exact absurd ((hmemns _).mpr ((lookupNat_isSome_iff _ _).mp
        (by rw [hl]; rfl))) hx
  have hrot : rotateSizeDir t (mkSizeDir t live gens)
      = dirMove ((sortDesc (gens.map Prod.fst)).foldl (shiftStep t)
          (mkSizeDir t live gens)) t.filePath (getRotatedFilePath t 1) := by
    simp only [rotateSizeDir, dirExists]
    rw [hnums, hlive1]
    simp [hc]
  rw [hrot]
  constructor
  · intro m hm
    rw [dirLookup_move_of_some hlive1]
    by_cases hm1 : m = 1
    · subst hm1
      simp
    · have hne1 : getRotatedFilePath t 1 ≠ getRotatedFilePath t m :=
        fun h => hm1 (getRotatedFilePath_inj t hc h).symm
      rw [if_neg hne1, if_neg (fun h => hfp_ne m h), if_neg hm1, hfold m]
      have h2m : 2 ≤ m := by omega
      by_cases hle : m ≤ t.maxFiles
      · rw [if_pos hle]
        by_cases hmem : m - 1 ∈ sortDesc (gens.map Prod.fst)
        · rw [if_pos ⟨hmem, hle, h2m⟩, dirLookup_mkSizeDir_rotated t hc hfp]
        · rw [if_neg (fun hcon => hmem hcon.1), hlookupNone _ hmem]
          by_cases hmns : m ∈ sortDesc (gens.map Prod.fst)
          · rw [if_pos hmns]
          · rw [if_neg hmns, dirLookup_mkSizeDir_rotated t hc hfp,
              hlookupNone _ hmns]
      · rw [if_neg hle, if_neg (fun hcon => hle hcon.2.1)]
        by_cases hmns : m ∈ sortDesc (gens.map Prod.fst)
        · rw [if_pos hmns]
        · rw [if_neg hmns, dirLookup_mkSizeDir_rotated t hc hfp,
            hlookupNone _ hmns]
  · rw [dirLookup_move_of_some hlive1,
      if_neg (getRotatedFilePath_ne_filePath t hc hfp 1), if_pos rfl]

/-- C1 (witness): the claim's own scenario — files `.1 .2 .3` with
`maxFiles = 3`; after rotation `.1` holds the old live content, `.2` what
was `.1`, `.3` what was `.2`, the old `.3` is gone, and the live name is
freed. -/
theorem rotateSizeBasedFile_shifts_generations_witness :
    (let t : FileTransport :=
      ⟨"app.log", "app", RotationTrigger.size, 100, false, 3, 0⟩
    let d := mkSizeDir t "new" [(1, "c1"), (2, "c2"), (3, "c3")]
    dirLookup (rotateSizeDir t d) (getRotatedFilePath t 1) = some "new" ∧
    dirLookup (rotateSizeDir t d) (getRotatedFilePath t 2) = some "c1" ∧
    dirLookup (rotateSizeDir t d) (getRotatedFilePath t 3) = some "c2" ∧
    dirLookup (rotateSizeDir t d) (getRotatedFilePath t 4) = none ∧
    dirLookup (rotateSizeDir t d) t.filePath = none) := by
  have h := rotateSizeBasedFile_shifts_generations
    ⟨"app.log", "app", RotationTrigger.size, 100, false, 3, 0⟩
    "new" [(1, "c1"), (2, "c2"), (3, "c3")]
    rfl (by decide) (by decide) (by decide) (by decide)
  refine ⟨?_, ?_, ?_, ?_, h.2⟩
  · rw [h.1 1 (by decide)]
    rfl
  · rw [h.1 2 (by decide)]
    rfl
  · rw [h.1 3 (by decide)]
    rfl
  · rw [h.1 4 (by decide)]
    rfl

/-! ## C10: what a size-mode rotation may touch -/

/-- C10 (counterexample).  The claim states the rotation task renames or
deletes only files that start with the live base name *and* carry a
trailing numeric generation suffix.  But the rotation also renames the
just-closed live file itself — whose name carries no numeric suffix — to
generation 1: here `app.log` matches no `.N`/`.N.gz` suffix, yet after
the rotation the name `app.log` is gone. -/
theorem rotateSizeDir_touches_live_file :
    (let t : FileTransport :=
      ⟨"app.log", "app", RotationTrigger.size, 100, false, 3, 0⟩
    fileNumberMatch "app.log" = none ∧
    dirLookup [("app.log", "new")] "app.log" = some "new" ∧
    dirLookup (rotateSizeDir t [("app.log", "new")]) "app.log" = none) := by
  refine ⟨by decide, rfl, ?_⟩
  decide

/-- C10 (amended). With compression off, a size-mode rotation renames or
deletes only the just-closed live file (renamed to generation 1) and
files whose name starts with the live file's name and carries a trailing
numeric generation suffix; every other file in the directory is left
unchanged. -/
theorem rotateSizeDir_frame (t : FileTransport) (hc : t.compress = false)
    (d : Dir) (q : String) (hq1 : q ≠ t.filePath)
    (hq2 : ¬(strStartsWith q t.filePath = true ∧
      (fileNumberMatch q).isSome = true)) :
    dirLookup (rotateSizeDir t d) q = dirLookup d q := by
  have hqpath : ∀ k, q ≠ getRotatedFilePath t k := by
    intro k h
    apply hq2
    rw [h]
    exact ⟨strStartsWith_rotated t k, by rw [fileNumberMatch_rotated t hc]; rfl⟩
  simp only [rotateSizeDir]
  by_cases hex : dirExists
      ((sortDesc ((listFiles d).filterMap
        (fun f => extractFileNumber f t.filePath))).foldl (shiftStep t) d)
      t.filePath = true
  · rw [if_pos hex, hc]
    simp only [Bool.false_eq_true, if_false]
    cases hlk : dirLookup
        ((sortDesc ((listFiles d).filterMap
          (fun f => extractFileNumber f t.filePath))).foldl (shiftStep t) d)
        t.filePath with
    | none => rw [dirLookup_move_of_none hlk, shiftFold_frame t _ _ q hqpath]
    | some c =>
      rw [dirLookup_move_of_some hlk,
        if_neg (fun h => hqpath 1 h.symm), if_neg (fun h => hq1 h.symm),
        shiftFold_frame t _ _ q hqpath]
  · rw [if_neg hex, shiftFold_frame t _ _ q hqpath]

/-- C10 (amended, witness): an unrelated file `other.txt` survives a
rotation untouched. -/
theorem rotateSizeDir_frame_witness :
    dirLookup (rotateSizeDir
      ⟨"app.log", "app", RotationTrigger.size, 100, false, 3, 0⟩
      [("app.log", "new"), ("other.txt", "keep")]) "other.txt" =
    dirLookup [("app.log", "new"), ("other.txt", "keep")] "other.txt" :=
  rotateSizeDir_frame ⟨"app.log", "app", RotationTrigger.size, 100, false, 3, 0⟩
    rfl [("app.log", "new"), ("other.txt", "keep")] "other.txt"
    (by decide) (by decide)

/-! ## Transport state and size-mode logging (handleSizeBasedLogging) -/

/-- A rotation request enqueued on the global background queue by the
transport: the size-mode `() => this.rotateSizeBasedFile()` thunk, or the
hybrid-mode `() => this.rotateDateBasedFile(path, timestamp)` thunk. -/
inductive PendingTask
  | rotateSize
  | rotateDate (path : String) (timestamp : Int)
deriving DecidableEq, Repr

/-- Stream lifecycle events observed at the filesystem boundary, used to
state which streams a call opens or ends. -/
inductive StreamEv
  | opened (path : String)
  | ended (path : String)
deriving DecidableEq, Repr

/-- The mutable state of one `FileTransport` instance together with its
directory.  `hasStream` is the size-mode `this.stream`; `currentStream`
is the date/hybrid `this.currentStream`, identified by the path it
appends to.  `writeOk`/`openOk` inject stream-write and stream-creation
failures (the exceptions the source catches); `pending` records the
rotation thunks handed to the global background queue, in enqueue order;
`events` is an append-only trace of stream opens/ends. -/
structure TState where
  isClosed : Bool
  hasStream : Bool
  currentFileSize : Nat
  currentDate : String
  currentStream : Option String
  openOk : Bool
  writeOk : Bool
  dir : Dir
  pending : List PendingTask
  events : List StreamEv
deriving Repr

/-- `FileTransport.handleSizeBasedLogging`: with no stream, return; if
`currentFileSize` plus the entry's byte length exceeds `maxFileSize`,
enqueue a rotation task; then (regardless) try to write the entry to the
current live stream, bumping the size counter — a write failure is
caught and ignored (neither the write nor the counter bump happens). -/
def handleSizeBasedLogging (t : FileTransport) (st : TState)
    (formattedEntry : String) : TState :=
  if !st.hasStream then st
  else
    let st1 :=
      if st.currentFileSize + byteLen formattedEntry > t.maxFileSize then
        { st with pending := st.pending ++ [PendingTask.rotateSize] }
      else st
    if st1.writeOk then
      { st1 with
        dir := dirAppend st1.dir t.filePath formattedEntry,
        currentFileSize := st1.currentFileSize + byteLen formattedEntry }
    else st1

/-- `FileTransport.rotateSizeBasedFile` as a state transformer: when a
stream exists, end it, perform the directory renames of `rotateSizeDir`,
then open a fresh append-mode live stream (creating an empty live file)
and reset the byte counter. -/
def rotateSizeBasedFileSt (t : FileTransport) (st : TState) : TState :=
  if !st.hasStream then st
  else
    { st with
      dir := dirEnsure (rotateSizeDir t st.dir) t.filePath,
      currentFileSize := 0,
      events := st.events ++ [StreamEv.ended t.filePath, StreamEv.opened t.filePath] }

/-- C2. In size-based mode the formatted entry is appended to the live
handle immediately whether or not a rotation was enqueued, and a rotation
task is enqueued exactly when `currentSize + byteLength(entry)` exceeds
`maxFileSize` — so the live file can overshoot `maxFileSize` by one
entry.  Concretely (second conjunct): with `maxFileSize = 100`, a 90-byte
entry then a 50-byte entry enqueue exactly one rotation, both entries
land in the pre-rotation live file (140 bytes), and after the queued
rotation runs the 140 bytes sit in the generation-1 file while the live
file is empty. -/
theorem handleSizeBasedLogging_spec :
    (∀ (t : FileTransport) (st : TState) (entry : String),
      st.hasStream = true → st.writeOk = true →
      dirLookup (handleSizeBasedLogging t st entry).dir t.filePath =
        some ((dirLookup st.dir t.filePath).getD "" ++ entry) ∧
      (handleSizeBasedLogging t st entry).pending =
        st.pending ++
          (if st.currentFileSize + byteLen entry > t.maxFileSize then
            [PendingTask.rotateSize] else [])) ∧
    (let t : FileTransport :=
      ⟨"app.log", "app", RotationTrigger.size, 100, false, 5, 0⟩
    let e1 : String := ⟨List.replicate 90 'a'⟩
    let e2 : String := ⟨List.replicate 50 'b'⟩
    let st0 : TState :=
      ⟨false, true, 0, "", none, true, true, [("app.log", "")], [], []⟩
    let st1 := handleSizeBasedLogging t st0 e1
    let st2 := handleSizeBasedLogging t st1 e2
    let st3 := rotateSizeBasedFileSt t st2
    st1.pending = [] ∧
    st2.pending = [PendingTask.rotateSize] ∧
    dirLookup st2.dir "app.log" = some (e1 ++ e2) ∧
    byteLen (e1 ++ e2) = 140 ∧
    dirLookup st3.dir (getRotatedFilePath t 1) = some (e1 ++ e2) ∧
    dirLookup st3.dir "app.log" = some "") := by
  constructor
  · intro t st entry hstream hwrite
    have hcases : handleSizeBasedLogging t st entry =
        if st.currentFileSize + byteLen entry > t.maxFileSize then
          { st with
            pending := st.pending ++ [PendingTask.rotateSize],
            dir := dirAppend st.dir t.filePath entry,
            currentFileSize := st.currentFileSize + byteLen entry }
        else
          { st with
            dir := dirAppend st.dir t.filePath entry,
            currentFileSize := st.currentFileSize + byteLen entry } := by
      by_cases hgt : st.currentFileSize + byteLen entry > t.maxFileSize <;>
        simp [handleSizeBasedLogging, hstream, hwrite, hgt]
    by_cases hgt : st.currentFileSize + byteLen entry > t.maxFileSize <;>
      simp [hcases, hgt, dirAppend, dirLookup_write]
  · decide

/-- C2 (witness): a concrete in-cap write appends and enqueues nothing. -/
theorem handleSizeBasedLogging_spec_witness :
    dirLookup (handleSizeBasedLogging
        ⟨"app.log", "app", RotationTrigger.size, 100, false, 5, 0⟩
        ⟨false, true, 0, "", none, true, true, [("app.log", "")], [], []⟩
        "hi").dir "app.log" =
      some ((dirLookup [("app.log", "")] "app.log").getD "" ++ "hi") ∧
    (handleSizeBasedLogging
        ⟨"app.log", "app", RotationTrigger.size, 100, false, 5, 0⟩
        ⟨false, true, 0, "", none, true, true, [("app.log", "")], [], []⟩
        "hi").pending =
      [] ++ (if 0 + byteLen "hi" > 100 then [PendingTask.rotateSize] else []) :=
  handleSizeBasedLogging_spec.1
    ⟨"app.log", "app", RotationTrigger.size, 100, false, 5, 0⟩
    ⟨false, true, 0, "", none, true, true, [("app.log", "")], [], []⟩
    "hi" rfl rfl

/-! ## Datetime (datetime.ts): UTC calendar conversion -/

/-- One day in milliseconds (`DAY_IN_MS` of `daysDifference`). -/
def MS_PER_DAY : Int := 86400000

/-- Proleptic-Gregorian civil date `(year, month, day)` from a count of
days since the Unix epoch — the conversion `Date.prototype.toISOString`
performs for the date part (standard civil-from-days algorithm). -/
def civilFromDays (z0 : Int) : Int × Nat × Nat :=
  let z := z0 + 719468
  let era : Int := z.fdiv 146097
  let doe : Nat := (z - era * 146097).toNat
  let yoe : Nat := (doe - doe / 1460 + doe / 36524 - doe / 146096) / 365
  let y : Int := (yoe : Int) + era * 400
  let doy : Nat := doe - (365 * yoe + yoe / 4 - yoe / 100)
  let mp : Nat := (5 * doy + 2) / 153
  let d : Nat := doy - (153 * mp + 2) / 5 + 1
  let m : Nat := if mp < 10 then mp + 3 else mp - 9
  (y + (if m ≤ 2 then 1 else 0), m, d)

/-- Left-pad a digit string with zeros to width `w`. -/
def padZeros (s : String) (w : Nat) : String :=
  ⟨List.replicate (w - s.data.length) '0' ++ s.data⟩

/-- `toDateString` of datetime.ts:
`date.toISOString().split("T")[0]`, i.e. the UTC calendar day
`YYYY-MM-DD` of the timestamp (modelled for the years 0–9999 that
`toISOString` renders as four digits). -/
def toDateString (ms : Int) : String :=
  let days := ms.fdiv MS_PER_DAY
  let ymd := civilFromDays days
  padZeros (natToString ymd.1.toNat) 4 ++ "-" ++
    padZeros (natToString ymd.2.1) 2 ++ "-" ++
    padZeros (natToString ymd.2.2) 2

/-- `daysDifference` of datetime.ts:
`Math.floor((date2 - date1) / DAY_IN_MS)` (floor division). -/
def daysDifference (date1 date2 : Int) : Int := (date2 - date1).fdiv MS_PER_DAY

/-- `isOlderThan` of datetime.ts:
`daysDifference(date, referenceDate) > days`. -/
def isOlderThan (date : Int) (days : Nat) (referenceDate : Int) : Bool :=
  daysDifference date referenceDate > (days : Int)

/-- Gregorian leap year (what `Date.UTC`/ISO parsing validates against). -/
def isLeap (y : Int) : Bool := (y % 4 == 0 && y % 100 != 0) || y % 400 == 0

def daysInMonth (y : Int) (m : Nat) : Nat :=
  if m = 2 then (if isLeap y then 29 else 28)
  else if m = 4 ∨ m = 6 ∨ m = 9 ∨ m = 11 then 30 else 31

/-- Days since the Unix epoch of a civil date (inverse of
`civilFromDays`; the conversion behind `new Date("YYYY-MM-DDT00:00:00.000Z")`). -/
def daysFromCivil (y : Int) (m d : Nat) : Int :=
  let y' := y - (if m ≤ 2 then 1 else 0)
  let era : Int := y'.fdiv 400
  let yoe : Nat := (y' - era * 400).toNat
  let doy : Nat := (153 * (if 2 < m then m - 3 else m + 9) + 2) / 5 + d - 1
  let doe : Nat := yoe * 365 + yoe / 4 - yoe / 100 + doy
  era * 146097 + (doe : Int) - 719468

/-- Match of `DATE_FORMAT_REGEX` (`(\d{4}-\d{2}-\d{2})`) at the start of
a character list: the year/month/day digits. -/
def dateShapeAt (cs : List Char) : Option (Nat × Nat × Nat) :=
  match cs with
  | y1 :: y2 :: y3 :: y4 :: '-' :: m1 :: m2 :: '-' :: d1 :: d2 :: _ =>
    if y1.isDigit && y2.isDigit && y3.isDigit && y4.isDigit &&
        m1.isDigit && m2.isDigit && d1.isDigit && d2.isDigit then
      some (digitVal y1 * 1000 + digitVal y2 * 100 + digitVal y3 * 10 + digitVal y4,
        digitVal m1 * 10 + digitVal m2,
        digitVal d1 * 10 + digitVal d2)
    else none
  | _ => none

/-- Leftmost match of `DATE_FORMAT_REGEX` in a name (the semantics of
`filename.match(/(\d{4}-\d{2}-\d{2})/)`). -/
def findDateMatch : List Char → Option (Nat × Nat × Nat)
  | [] => none
  | c :: rest =>
    match dateShapeAt (c :: rest) with
    | some r => some r
    | none => findDateMatch rest

/-- The `new Date(dateString + "T00:00:00.000Z")` parse with its
`isNaN` validity check: out-of-range month or day yields `null`. -/
def parseISODateUTC (ymd : Nat × Nat × Nat) : Option Int :=
  if 1 ≤ ymd.2.1 ∧ ymd.2.1 ≤ 12 ∧ 1 ≤ ymd.2.2 ∧
      ymd.2.2 ≤ daysInMonth ymd.1 ymd.2.1 then
    some (daysFromCivil ymd.1 ymd.2.1 ymd.2.2 * MS_PER_DAY)
  else none

/-- `extractDateFromFilename` of datetime.ts with its default
`YYYY-MM-DD` pattern. -/
def extractDateFromFilename (filename : String) : Option Int :=
  (findDateMatch filename.data).bind parseISODateUTC

/-! ## Date/hybrid-mode logging (part_005) -/

/-- `LogLevel` of types.ts. -/
inductive LogLevel
  | debug
  | info
  | warn
  | error
deriving DecidableEq, Repr

/-- The `Meta` metadata map of types.ts (`Record<string, unknown>`),
with values abstracted to strings. -/
abbrev MetaMap := List (String × String)

/-- A pluggable `LogFormatter`: `format` returns the formatted entry or
throws (`Except.error`). -/
abbrev Formatter := LogLevel → String → MetaMap → Int → Except String String

/-- `FileTransport.getCurrentFilePath`:
`path.join(this.filePath, `${pattern}-${date}${LOG_FILE_EXTENSION}`)`,
flattened to the bucket file's name. -/
def getCurrentFilePath (t : FileTransport) (ts : Int) : String :=
  t.fileNamePattern ++ "-" ++ toDateString ts ++ LOG_FILE_EXTENSION

/-- `FileTransport.ensureCurrentStream`: if the entry's date bucket
differs from the tracked one, end the previous stream (when present),
record the new bucket, and try to open an append stream on the bucket's
file — a creation failure (`openOk = false`) is caught and leaves no
stream. -/
def ensureCurrentStream (t : FileTransport) (st : TState) (ts : Int) : TState :=
  let formattedDate := toDateString ts
  if st.currentDate ≠ formattedDate then
    let st1 :=
      match st.currentStream with
      | some p =>
        { st with
          currentStream := none
          events := st.events ++ [StreamEv.ended p] }
      | none => st
    let filePath := getCurrentFilePath t ts
    if st1.openOk then
      { st1 with
        currentDate := formattedDate,
        currentStream := some filePath,
        dir := dirEnsure st1.dir filePath,
        events := st1.events ++ [StreamEv.opened filePath] }
    else
      { st1 with currentDate := formattedDate, currentStream := none }
  else st

/-- `FileTransport.handleDateBasedLogging`: ensure the bucket stream,
then try to write the entry (write failures are caught and ignored). -/
def handleDateBasedLogging (t : FileTransport) (st : TState)
    (formattedEntry : String) (ts : Int) : TState :=
  let st1 := ensureCurrentStream t st ts
  match st1.currentStream with
  | some p =>
    if st1.writeOk then { st1 with dir := dirAppend st1.dir p formattedEntry }
    else st1
  | none => st1

/-- `getFileSize` of fs.ts: `statSync(path).size`, `0` on any failure
(including a missing file). -/
def getFileSize (d : Dir) (name : String) : Nat :=
  byteLen ((dirLookup d name).getD "")

/-- `FileTransport.handleCombinedLogging` (hybrid mode): ensure the
bucket stream; when one exists, read the bucket file's size from disk,
enqueue a date-file rotation if it would overflow `maxFileSize`, then
try to write the entry. -/
def handleCombinedLogging (t : FileTransport) (st : TState)
    (formattedEntry : String) (ts : Int) : TState :=
  let st1 := ensureCurrentStream t st ts
  match st1.currentStream with
  | none => st1
  | some p =>
    let currentFilePath := getCurrentFilePath t ts
    let currentSize := getFileSize st1.dir currentFilePath
    let st2 :=
      if currentSize + byteLen formattedEntry > t.maxFileSize then
        { st1 with pending :=
          st1.pending ++ [PendingTask.rotateDate currentFilePath ts] }
      else st1
    if st2.writeOk then { st2 with dir := dirAppend st2.dir p formattedEntry }
    else st2

/-- `FileTransport.log`: a closed transport returns immediately;
otherwise the formatter runs *outside* any `try`/`catch` (a formatter
exception propagates to the caller), and the result is dispatched on the
rotation mode. -/
def logT (t : FileTransport) (fmt : Formatter) (st : TState)
    (level : LogLevel) (message : String) (meta : MetaMap) (ts : Int) :
    Except String TState :=
  if st.isClosed then Except.ok st
  else
    match fmt level message meta ts with
    | Except.error e => Except.error e
    | Except.ok formattedEntry =>
      Except.ok
        (match t.rotation with
        | RotationTrigger.date => handleDateBasedLogging t st formattedEntry ts
        | RotationTrigger.size => handleSizeBasedLogging t st formattedEntry
        | RotationTrigger.hybrid => handleCombinedLogging t st formattedEntry ts)

/-- `FileTransport.close`: a second call returns immediately; the first
call marks the transport closed, ends the size-mode stream (when
present) and the date-mode stream (when present, also clearing it). -/
def closeT (t : FileTransport) (st : TState) : TState :=
  if st.isClosed then st
  else
    { st with
      isClosed := true,
      currentStream := none,
      events := st.events ++
        (if st.hasStream then [StreamEv.ended t.filePath] else []) ++
        (match st.currentStream with
        | some p => [StreamEv.ended p]
        | none => []) }

/-! ## C5: date-bucket stream selection -/

/-- Count of `opened` events in a trace. -/
def countOpens (evs : List StreamEv) : Nat :=
  (evs.filter (fun e =>
    match e with
    | StreamEv.opened _ => true
    | _ => false)).length

theorem countOpens_append (a b : List StreamEv) :
    countOpens (a ++ b) = countOpens a + countOpens b := by
  simp [countOpens, List.filter_append]

theorem ensureCurrentStream_currentDate (t : FileTransport) (st : TState)
    (ts : Int) : (ensureCurrentStream t st ts).currentDate = toDateString ts := by
  unfold ensureCurrentStream
  by_cases h : st.currentDate ≠ toDateString ts
  · rw [if_pos h]
    cases st.currentStream <;> by_cases ho : st.openOk <;> simp [ho]
  · rw [if_neg h]
    exact Decidable.not_not.mp h

theorem ensureCurrentStream_openOk (t : FileTransport) (st : TState)
    (ts : Int) : (ensureCurrentStream t st ts).openOk = st.openOk := by
  unfold ensureCurrentStream
  by_cases h : st.currentDate ≠ toDateString ts
  · rw [if_pos h]
    cases st.currentStream <;> by_cases ho : st.openOk <;> simp [ho]
  · rw [if_neg h]

theorem ensureCurrentStream_writeOk (t : FileTransport) (st : TState)
    (ts : Int) : (ensureCurrentStream t st ts).writeOk = st.writeOk := by
  unfold ensureCurrentStream
  by_cases h : st.currentDate ≠ toDateString ts
  · rw [if_pos h]
    cases st.currentStream <;> by_cases ho : st.openOk <;> simp [ho]
  · rw [if_neg h]

theorem countOpens_ensureCurrentStream (t : FileTransport) (st : TState)
    (ts : Int) :
    countOpens (ensureCurrentStream t st ts).events =
      countOpens st.events +
        (if st.currentDate ≠ toDateString ts ∧ st.openOk = true then 1 else 0) := by
  unfold ensureCurrentStream
  by_cases h : st.currentDate ≠ toDateString ts
  · rw [if_pos h]
    cases hs : st.currentStream with
    | none =>
      by_cases ho : st.openOk <;>
        simp [ho, h, countOpens_append, countOpens]
    | some p =>
      by_cases ho : st.openOk <;>
        simp [ho, h, countOpens_append, countOpens]
  · rw [if_neg h]
    simp [h]

theorem handleDateBasedLogging_events (t : FileTransport) (st : TState)
    (e : String) (ts : Int) :
    (handleDateBasedLogging t st e ts).events =
      (ensureCurrentStream t st ts).events := by
  unfold handleDateBasedLogging
  cases h : (ensureCurrentStream t st ts).currentStream with
  | none => simp [h]
  | some p => by_cases hw : (ensureCurrentStream t st ts).writeOk <;> simp [h, hw]

theorem handleDateBasedLogging_currentDate (t : FileTransport) (st : TState)
    (e : String) (ts : Int) :
    (handleDateBasedLogging t st e ts).currentDate =
      (ensureCurrentStream t st ts).currentDate := by
  unfold handleDateBasedLogging
  cases h : (ensureCurrentStream t st ts).currentStream with
  | none => simp [h]
  | some p => by_cases hw : (ensureCurrentStream t st ts).writeOk <;> simp [h, hw]

theorem handleDateBasedLogging_openOk (t : FileTransport) (st : TState)
    (e : String) (ts : Int) :
    (handleDateBasedLogging t st e ts).openOk =
      (ensureCurrentStream t st ts).openOk := by
  unfold handleDateBasedLogging
  cases h : (ensureCurrentStream t st ts).currentStream with
  | none => simp [h]
  | some p => by_cases hw : (ensureCurrentStream t st ts).writeOk <;> simp [h, hw]

/-- C5. In date-based mode the stream is keyed by the UTC calendar-day
bucket of the entry's own timestamp: (1) a call whose bucket matches the
tracked one changes nothing — no stream is opened; (2) on a bucket
switch (with stream creation succeeding) the tracked bucket becomes the
entry's bucket, the live stream is exactly the bucket file's stream, and
the trace shows the previous stream (when present) ended *before* the
new one is opened — so at most one live stream exists; (3) two writes
whose timestamps fall on the same calendar day open at most one stream
in total (none when the bucket was already current). -/
theorem dateBucket_stream_selection :
    (∀ (t : FileTransport) (st : TState) (ts : Int),
      st.currentDate = toDateString ts → ensureCurrentStream t st ts = st) ∧
    (∀ (t : FileTransport) (st : TState) (ts : Int),
      st.currentDate ≠ toDateString ts → st.openOk = true →
      (ensureCurrentStream t st ts).currentDate = toDateString ts ∧
      (ensureCurrentStream t st ts).currentStream =
        some (getCurrentFilePath t ts) ∧
      (ensureCurrentStream t st ts).events =
        (st.events ++
          (match st.currentStream with
          | some p => [StreamEv.ended p]
          | none => [])) ++ [StreamEv.opened (getCurrentFilePath t ts)]) ∧
    (∀ (t : FileTransport) (st : TState) (e1 e2 : String) (ts1 ts2 : Int),
      toDateString ts1 = toDateString ts2 → st.openOk = true →
      countOpens (handleDateBasedLogging t
          (handleDateBasedLogging t st e1 ts1) e2 ts2).events =
        countOpens st.events +
          (if st.currentDate = toDateString ts1 then 0 else 1)) := by
  refine ⟨?_, ?_, ?_⟩
  · intro t st ts h
    unfold ensureCurrentStream
    rw [if_neg (Decidable.not_not.mpr h)]
  · intro t st ts hne hopen
    unfold ensureCurrentStream
    rw [if_pos hne]
    cases hs : st.currentStream <;> simp [hopen]
  · intro t st e1 e2 ts1 ts2 hsame hopen
    rw [handleDateBasedLogging_events, countOpens_ensureCurrentStream,
      handleDateBasedLogging_events, handleDateBasedLogging_currentDate,
      ensureCurrentStream_currentDate, handleDateBasedLogging_openOk,
      ensureCurrentStream_openOk, countOpens_ensureCurrentStream]
    rw [← hsame]
    simp only [ne_eq, not_true_eq_false, false_and, if_false, add_zero]
    by_cases h : st.currentDate = toDateString ts1
    · rw [if_pos h]
      simp [h, hopen]
    · rw [if_neg h]
      simp [h, hopen]

/-- C5 (witness): a fresh date-mode transport, one write late on
2024-01-15 UTC then one early on 2024-01-16 UTC; plus the same-day
double-write opening exactly one stream. -/
theorem dateBucket_stream_selection_witness :
    (ensureCurrentStream
        ⟨"logs", "app", RotationTrigger.date, 100, false, 0, 30⟩
        ⟨false, false, 0, "2024-01-15", some "app-2024-01-15.log", true, true,
          [], [], []⟩ 1705363140000 =
      ⟨false, false, 0, "2024-01-15", some "app-2024-01-15.log", true, true,
        [], [], []⟩) ∧
    ((ensureCurrentStream
        ⟨"logs", "app", RotationTrigger.date, 100, false, 0, 30⟩
        ⟨false, false, 0, "2024-01-15", some "app-2024-01-15.log", true, true,
          [], [], []⟩ 1705363200000).currentDate = toDateString 1705363200000 ∧
      (ensureCurrentStream
        ⟨"logs", "app", RotationTrigger.date, 100, false, 0, 30⟩
        ⟨false, false, 0, "2024-01-15", some "app-2024-01-15.log", true, true,
          [], [], []⟩ 1705363200000).currentStream =
        some (getCurrentFilePath
          ⟨"logs", "app", RotationTrigger.date, 100, false, 0, 30⟩
          1705363200000) ∧
      (ensureCurrentStream
        ⟨"logs", "app", RotationTrigger.date, 100, false, 0, 30⟩
        ⟨false, false, 0, "2024-01-15", some "app-2024-01-15.log", true, true,
          [], [], []⟩ 1705363200000).events =
        ([] ++ [StreamEv.ended "app-2024-01-15.log"]) ++
          [StreamEv.opened (getCurrentFilePath
            ⟨"logs", "app", RotationTrigger.date, 100, false, 0, 30⟩
            1705363200000)]) ∧
    countOpens (handleDateBasedLogging
        ⟨"logs", "app", RotationTrigger.date, 100, false, 0, 30⟩
        (handleDateBasedLogging
          ⟨"logs", "app", RotationTrigger.date, 100, false, 0, 30⟩
          ⟨false, false, 0, "", none, true, true, [], [], []⟩
          "a" 1705276800000)
        "b" 1705363140000).events =
      countOpens ([] : List StreamEv) + (if ("" : String) = toDateString 1705276800000 then 0 else 1) := by
  refine ⟨?_, ?_, ?_⟩
  · exact dateBucket_stream_selection.1 _ _ _ (by decide)
  · exact dateBucket_stream_selection.2.1 _ _ _ (by decide) rfl
  · exact dateBucket_stream_selection.2.2 _ _ "a" "b" _ _ (by decide) rfl

/-! ## C9: close semantics and C8: the transport error boundary -/

/-- C9. Once `close()` has run, every later `log()` is a strict no-op —
the state (directory, streams, pending rotations, trace) is returned
unchanged and no error escapes; and `close()` is idempotent: the second
call adds no events, so each stream's `end` is invoked at most once
across repeated `close()` calls. -/
theorem closed_transport_noop :
    (∀ (t : FileTransport) (fmt : Formatter) (st : TState) (level : LogLevel)
        (message : String) (meta : MetaMap) (ts : Int),
      st.isClosed = true →
      logT t fmt st level message meta ts = Except.ok st) ∧
    (∀ (t : FileTransport) (st : TState),
      (closeT t st).isClosed = true ∧ closeT t (closeT t st) = closeT t st) := by
  constructor
  · intro t fmt st level message meta ts hclosed
    simp [logT, hclosed]
  · intro t st
    by_cases h : st.isClosed
    · constructor
      · simp [closeT, h]
      · simp [closeT, h]
    · have h1 : (closeT t st).isClosed = true := by
        simp [closeT, h]
      exact ⟨h1, by rw [closeT, if_pos h1]⟩

/-- C9 (witness): a concrete closed transport ignores a `log()`, and a
double `close()` equals a single one. -/
theorem closed_transport_noop_witness :
    logT ⟨"app.log", "app", RotationTrigger.size, 100, false, 5, 0⟩
        (fun _ _ _ _ => Except.ok "x")
        ⟨true, true, 7, "", none, true, true, [("app.log", "z")], [], []⟩
        LogLevel.info "m" [] 0 =
      Except.ok ⟨true, true, 7, "", none, true, true, [("app.log", "z")], [], []⟩ ∧
    (closeT ⟨"app.log", "app", RotationTrigger.size, 100, false, 5, 0⟩
        (closeT ⟨"app.log", "app", RotationTrigger.size, 100, false, 5, 0⟩
          ⟨false, true, 7, "", none, true, true, [("app.log", "z")], [], []⟩) =
      closeT ⟨"app.log", "app", RotationTrigger.size, 100, false, 5, 0⟩
        ⟨false, true, 7, "", none, true, true, [("app.log", "z")], [], []⟩) :=
  ⟨closed_transport_noop.1 _ _ _ LogLevel.info "m" [] 0 rfl,
    (closed_transport_noop.2 ⟨"app.log", "app", RotationTrigger.size, 100, false, 5, 0⟩
      ⟨false, true, 7, "", none, true, true, [("app.log", "z")], [], []⟩).2⟩

/-- C8 (counterexample). `log()` calls `this.formatter.format(...)`
outside any `try`/`catch`, so a throwing formatter makes `log()` throw
to the caller — refuting "log never throws; all internal errors
(formatting, …) are caught at the transport boundary". -/
theorem logT_formatter_error_propagates :
    logT ⟨"app.log", "app", RotationTrigger.size, 100, false, 5, 0⟩
        (fun _ _ _ _ => Except.error "boom")
        ⟨false, true, 0, "", none, true, true, [("app.log", "")], [], []⟩
        LogLevel.info "m" [] 0 =
      Except.error "boom" := rfl

/-- C8 (amended). Errors from stream creation, stream writes and
rotation scheduling are caught and discarded inside the transport (the
failure-injection flags `openOk`/`writeOk` of the state are quantified
over), so `log()` returns normally for every transport, level, message,
metadata map and timestamp — provided the formatter itself does not
throw; a formatter exception is the one internal error `log()` does not
catch. -/
theorem logT_ok_of_formatter_ok (t : FileTransport) (fmt : Formatter)
    (st : TState) (level : LogLevel) (message : String) (meta : MetaMap)
    (ts : Int)
    (hfmt : ∀ (l : LogLevel) (m : String) (md : MetaMap) (x : Int),
      ∃ s, fmt l m md x = Except.ok s) :
    ∃ st', logT t fmt st level message meta ts = Except.ok st' := by
  by_cases hclosed : st.isClosed
  · exact ⟨st, by simp [logT, hclosed]⟩
  · obtain ⟨s, hs⟩ := hfmt level message meta ts
    refine ⟨(match t.rotation with
      | RotationTrigger.date => handleDateBasedLogging t st s ts
      | RotationTrigger.size => handleSizeBasedLogging t st s
      | RotationTrigger.hybrid => handleCombinedLogging t st s ts), ?_⟩
    simp only [logT, hclosed, Bool.false_eq_true, if_false, hs]

/-- C8 (amended, witness): with a total formatter and a state whose
stream writes fail (`writeOk = false`), `log()` still returns normally. -/
theorem logT_ok_of_formatter_ok_witness :
    ∃ st', logT ⟨"app.log", "app", RotationTrigger.size, 100, false, 5, 0⟩
        (fun _ _ _ _ => Except.ok "entry")
        ⟨false, true, 0, "", none, true, false, [("app.log", "")], [], []⟩
        LogLevel.warn "m" [] 0 = Except.ok st' :=
  logT_ok_of_formatter_ok _ _ _ LogLevel.warn "m" [] 0
    (fun _ _ _ _ => ⟨"entry", rfl⟩)

/-! ## C7: hybrid-mode date-file rotation (rotateDateBasedFile) -/

/-- `path.extname` (Node): the substring from the last `.` of the final
name component (empty for names without a dot or with only a leading
dot). -/
def extnameM (s : String) : String :=
  let r := s.data.reverse
  let pre := r.takeWhile (fun c => c ≠ '.')
  if pre.length < r.length then
    if r.length - pre.length - 1 = 0 then ""
    else ⟨'.' :: pre.reverse⟩
  else ""

/-- `getBaseName` of fs.ts: `path.basename(p, extname(p))`, i.e. the
name with its extension removed. -/
def getBaseNameM (s : String) : String :=
  ⟨s.data.take (s.data.length - (extnameM s).data.length)⟩

/-- The candidate rotated name `${basename}.${n}${extension}` scanned by
`rotateDateBasedFile`. -/
def rotatedName (base ext : String) (n : Nat) : String :=
  base ++ "." ++ natToString n ++ ext

/-- The `while (exists(rotatedPath)) rotationNumber++` scan, with enough
fuel to clear every file in the directory. -/
def findRotationNumberAux (d : Dir) (base ext : String) : Nat → Nat → Nat
  | 0, n => n
  | fuel + 1, n =>
    if dirExists d (rotatedName base ext n) then
      findRotationNumberAux d base ext fuel (n + 1)
    else n

def findRotationNumber (d : Dir) (base ext : String) : Nat :=
  findRotationNumberAux d base ext (d.length + 1) 1

/-- The first step of `rotateDateBasedFile`: end the current stream when
it is the one writing to the file being rotated, clearing the tracked
bucket. -/
def rotateDateClose (t : FileTransport) (st : TState)
    (filePath : String) (ts : Int) : TState :=
  match st.currentStream with
  | some p =>
    if getCurrentFilePath t ts = filePath then
      { st with
        currentStream := none
        currentDate := ""
        events := st.events ++ [StreamEv.ended p] }
    else st
  | none => st

/-- `FileTransport.rotateDateBasedFile`: end the current stream when it
points at the file being rotated; find the first unused numeric suffix
for that bucket (scanning only the uncompressed `.N<ext>` names); move
the over-sized file there; compress the renamed file when `compress` is
set; finally `ensureCurrentStream(timestamp)` reopens a bucket stream. -/
def rotateDateBasedFile (t : FileTransport) (st : TState)
    (filePath : String) (ts : Int) : TState :=
  let st1 := rotateDateClose t st filePath ts
  let base := getBaseNameM filePath
  let ext := extnameM filePath
  let rotationNumber := findRotationNumber st1.dir base ext
  let rotatedPath := rotatedName base ext rotationNumber
  let st2 := { st1 with dir := dirMove st1.dir filePath rotatedPath }
  let st3 :=
    if t.compress then { st2 with dir := compressFileM st2.dir rotatedPath }
    else st2
  ensureCurrentStream t st3 ts

theorem rotatedName_inj (base ext : String) {a b : Nat}
    (h : rotatedName base ext a = rotatedName base ext b) : a = b := by
  have hd := congrArg String.data h
  simp only [rotatedName, String.data_append, natToString] at hd
  have h1 := List.append_cancel_right hd
  have h2 := List.append_cancel_left h1
  have h3 := List.reverse_injective h2
  exact toDecRev_injective h3

theorem dirLookup_isSome_mem (d : Dir) (q : String)
    (h : (dirLookup d q).isSome = true) : q ∈ listFiles d := by
  induction d with
  | nil => simp [dirLookup] at h
  | cons p rest ih =>
    obtain ⟨k, v⟩ := p
    by_cases hk : k = q
    · simp [listFiles, hk]
    · rw [dirLookup, if_neg hk] at h
      simp [listFiles]
      right
      have := ih h
      simpa [listFiles] using this

theorem exists_free_rotated (d : Dir) (base ext : String) :
    ∃ k, 1 ≤ k ∧ k < 1 + (d.length + 1) ∧
      dirExists d (rotatedName base ext k) = false := by
  by_contra hcon
  push_neg at hcon
  have hocc : ∀ k, 1 ≤ k → k ≤ d.length + 1 →
      rotatedName base ext k ∈ listFiles d := by
    intro k h1 h2
    have hne := hcon k h1 (by omega)
    have hb : dirExists d (rotatedName base ext k) = true := by
      cases hd : dirExists d (rotatedName base ext k) with
      | false => exact absurd hd hne
      | true => rfl
    exact dirLookup_isSome_mem d _ hb
  have hinj : Function.Injective (fun k => rotatedName base ext k) :=
    fun a b hab => rotatedName_inj base ext hab
  have hnd : ((List.range' 1 (d.length + 1)).map
      (fun k => rotatedName base ext k)).Nodup :=
    (List.nodup_range' ..).map hinj
  have hsub : ((List.range' 1 (d.length + 1)).map
      (fun k => rotatedName base ext k)) ⊆ listFiles d := by
    intro x hx
    simp only [List.mem_map] at hx
    obtain ⟨k, hk, rfl⟩ := hx
    obtain ⟨hk1, hk2⟩ := List.mem_range'_1.mp hk
    exact hocc k hk1 (by omega)
  have hlen := (List.subperm_of_subset hnd hsub).length_le
  simp [listFiles] at hlen

theorem findRotationNumberAux_min (d : Dir) (base ext : String) :
    ∀ (fuel n : Nat),
      (∃ k, n ≤ k ∧ k < n + fuel ∧ dirExists d (rotatedName base ext k) = false) →
      dirExists d (rotatedName base ext
          (findRotationNumberAux d base ext fuel n)) = false ∧
      n ≤ findRotationNumberAux d base ext fuel n ∧
      ∀ j, n ≤ j → j < findRotationNumberAux d base ext fuel n →
        dirExists d (rotatedName base ext j) = true := by
  intro fuel
  induction fuel with
  | zero =>
    intro n hex
    obtain ⟨k, hk1, hk2, _⟩ := hex
    omega
  | succ f ih =>
    intro n hex
    by_cases hocc : dirExists d (rotatedName base ext n) = true
    · have hstep : findRotationNumberAux d base ext (f + 1) n =
          findRotationNumberAux d base ext f (n + 1) := by
        simp [findRotationNumberAux, hocc]
      rw [hstep]
      have hex' : ∃ k, n + 1 ≤ k ∧ k < n + 1 + f ∧
          dirExists d (rotatedName base ext k) = false := by
        obtain ⟨k, h1, h2, h3⟩ := hex
        have hkn : k ≠ n := by
          intro he
          rw [he, hocc] at h3
          exact Bool.noConfusion h3
        exact ⟨k, by omega, by omega, h3⟩
      obtain ⟨hfree, hge, hmin⟩ := ih (n + 1) hex'
      refine ⟨hfree, by omega, ?_⟩
      intro j hj1 hj2
      rcases Nat.eq_or_lt_of_le hj1 with he | hlt
      · rw [← he]
        exact hocc
      · exact hmin j (by omega) hj2
    · have hfree : dirExists d (rotatedName base ext n) = false := by
        cases hd : dirExists d (rotatedName base ext n) with
        | false => rfl
        | true => exact absurd hd hocc
      have hstep : findRotationNumberAux d base ext (f + 1) n = n := by
        simp [findRotationNumberAux, hfree]
      rw [hstep]
      exact ⟨hfree, Nat.le_refl n, fun j hj1 hj2 => by omega⟩

/-- The scan returns the smallest unused suffix `≥ 1` (for the
uncompressed `.N<ext>` names). -/
theorem findRotationNumber_min (d : Dir) (base ext : String) :
    dirExists d (rotatedName base ext (findRotationNumber d base ext)) = false ∧
    1 ≤ findRotationNumber d base ext ∧
    ∀ j, 1 ≤ j → j < findRotationNumber d base ext →
      dirExists d (rotatedName base ext j) = true :=
  findRotationNumberAux_min d base ext (d.length + 1) 1
    (exists_free_rotated d base ext)

theorem rotateDateClose_dir (t : FileTransport) (st : TState)
    (filePath : String) (ts : Int) :
    (rotateDateClose t st filePath ts).dir = st.dir := by
  unfold rotateDateClose
  cases st.currentStream with
  | none => rfl
  | some p => by_cases hip : getCurrentFilePath t ts = filePath <;> simp [hip]

theorem dirLookup_ensure_of_isSome (d : Dir) (name q : String)
    (h : (dirLookup d q).isSome = true) :
    dirLookup (dirEnsure d name) q = dirLookup d q := by
  unfold dirEnsure
  cases hn : dirLookup d name with
  | some c => rfl
  | none =>
    rw [dirLookup_write]
    by_cases he : name = q
    · rw [he] at hn
      rw [hn] at h
      simp at h
    · rw [if_neg he]

theorem ensureCurrentStream_dir_preserves (t : FileTransport) (s : TState)
    (ts : Int) (q : String) (h : (dirLookup s.dir q).isSome = true) :
    dirLookup (ensureCurrentStream t s ts).dir q = dirLookup s.dir q := by
  unfold ensureCurrentStream
  by_cases hd : s.currentDate ≠ toDateString ts
  · rw [if_pos hd]
    cases hs : s.currentStream <;> by_cases ho : s.openOk <;>
      simp [ho, dirLookup_ensure_of_isSome _ _ _ h]
  · rw [if_neg hd]

/-- C7 (counterexample).  With `compress = true` the suffix scan only
checks the uncompressed `.N.log` names, so after an earlier rotation
left `app-2024-01-15.1.log.gz`, a later rotation for the same bucket
picks `N = 1` again and its gzip output stream re-opens the existing
`app-2024-01-15.1.log.gz` (append-mode `createWriteStream`), changing
the previously-rotated file's content from `OLD` to `OLD ++ NEW`. -/
theorem rotateDateBasedFile_reuses_compressed_suffix :
    (let t : FileTransport :=
      ⟨"logs", "app", RotationTrigger.hybrid, 100, true, 5, 30⟩
    let st : TState :=
      ⟨false, false, 0, "", none, true, true,
        [("app-2024-01-15.log", "NEW"), ("app-2024-01-15.1.log.gz", "OLD")],
        [], []⟩
    findRotationNumber st.dir "app-2024-01-15" ".log" = 1 ∧
    dirLookup st.dir "app-2024-01-15.1.log.gz" = some "OLD" ∧
    dirLookup (rotateDateBasedFile t st "app-2024-01-15.log" 1705276800000).dir
        "app-2024-01-15.1.log.gz" = some "OLDNEW" ∧
    some "OLDNEW" ≠ some "OLD") := by
  refine ⟨?_, rfl, ?_, by decide⟩
  · decide
  · decide

/-- C7 (amended). A hybrid rotation renames the over-sized bucket file to
the smallest numeric suffix `N ≥ 1` whose *uncompressed* name
`basename.N<ext>` does not exist (the scan never looks at `.gz` names),
then compresses the renamed file when `compress = true`.  With
`compress = false` this means no existing file other than the rotated
live bucket file is ever touched: every other file's name and content
survive the rotation unchanged.  (With `compress = true` the guarantee
fails — see the counterexample.) -/
theorem rotateDateBasedFile_fresh_suffix (t : FileTransport) (st : TState)
    (filePath : String) (ts : Int) (hc : t.compress = false) :
    (dirExists st.dir (rotatedName (getBaseNameM filePath) (extnameM filePath)
        (findRotationNumber st.dir (getBaseNameM filePath)
          (extnameM filePath))) = false ∧
      1 ≤ findRotationNumber st.dir (getBaseNameM filePath) (extnameM filePath) ∧
      ∀ j, 1 ≤ j →
        j < findRotationNumber st.dir (getBaseNameM filePath) (extnameM filePath) →
        dirExists st.dir
          (rotatedName (getBaseNameM filePath) (extnameM filePath) j) = true) ∧
    (∀ q, q ≠ filePath → (dirLookup st.dir q).isSome = true →
      dirLookup (rotateDateBasedFile t st filePath ts).dir q =
        dirLookup st.dir q) := by
  constructor
  · exact findRotationNumber_min st.dir (getBaseNameM filePath) (extnameM filePath)
  · intro q hq hsome
    have hrot : rotateDateBasedFile t st filePath ts =
        ensureCurrentStream t
          { rotateDateClose t st filePath ts with
            dir := dirMove (rotateDateClose t st filePath ts).dir filePath
              (rotatedName (getBaseNameM filePath) (extnameM filePath)
                (findRotationNumber (rotateDateClose t st filePath ts).dir
                  (getBaseNameM filePath) (extnameM filePath))) } ts := by
      simp only [rotateDateBasedFile, hc, Bool.false_eq_true, if_false]
    rw [hrot]
    have hmove : dirLookup
        (dirMove st.dir filePath
          (rotatedName (getBaseNameM filePath) (extnameM filePath)
            (findRotationNumber st.dir (getBaseNameM filePath)
              (extnameM filePath)))) q = dirLookup st.dir q := by
      cases hlk : dirLookup st.dir filePath with
      | none => rw [dirLookup_move_of_none hlk]
      | some c =>
        rw [dirLookup_move_of_some hlk]
        have hfree :=
          (findRotationNumber_min st.dir (getBaseNameM filePath)
            (extnameM filePath)).1
        have hqr : rotatedName (getBaseNameM filePath) (extnameM filePath)
            (findRotationNumber st.dir (getBaseNameM filePath)
              (extnameM filePath)) ≠ q := by
          intro he
          rw [dirExists, he] at hfree
          rw [hsome] at hfree
          exact Bool.noConfusion hfree
        rw [if_neg hqr, if_neg (fun h => hq h.symm)]
    have hsome2 : (dirLookup
        (dirMove st.dir filePath
          (rotatedName (getBaseNameM filePath) (extnameM filePath)
            (findRotationNumber st.dir (getBaseNameM filePath)
              (extnameM filePath)))) q).isSome = true := by
      rw [hmove]
      exact hsome
    rw [ensureCurrentStream_dir_preserves t _ ts q
      (by rw [rotateDateClose_dir]; exact hsome2)]
    rw [show ({ rotateDateClose t st filePath ts with
        dir := dirMove (rotateDateClose t st filePath ts).dir filePath
          (rotatedName (getBaseNameM filePath) (extnameM filePath)
            (findRotationNumber (rotateDateClose t st filePath ts).dir
              (getBaseNameM filePath) (extnameM filePath))) } : TState).dir =
      dirMove (rotateDateClose t st filePath ts).dir filePath
          (rotatedName (getBaseNameM filePath) (extnameM filePath)
            (findRotationNumber (rotateDateClose t st filePath ts).dir
              (getBaseNameM filePath) (extnameM filePath))) from rfl]
    rw [rotateDateClose_dir]
    exact hmove

/-- C7 (amended, witness): concrete compress-off hybrid rotation —
`.1.log` is taken, the scan picks `.2.log`, and an unrelated existing
rotated file survives unchanged. -/
theorem rotateDateBasedFile_fresh_suffix_witness :
    (dirExists [("app-2024-01-15.log", "NEW"), ("app-2024-01-15.1.log", "OLD")]
        (rotatedName (getBaseNameM "app-2024-01-15.log")
          (extnameM "app-2024-01-15.log")
          (findRotationNumber
            [("app-2024-01-15.log", "NEW"), ("app-2024-01-15.1.log", "OLD")]
            (getBaseNameM "app-2024-01-15.log")
            (extnameM "app-2024-01-15.log"))) = false ∧
      1 ≤ findRotationNumber
            [("app-2024-01-15.log", "NEW"), ("app-2024-01-15.1.log", "OLD")]
            (getBaseNameM "app-2024-01-15.log") (extnameM "app-2024-01-15.log") ∧
      ∀ j, 1 ≤ j →
        j < findRotationNumber
              [("app-2024-01-15.log", "NEW"), ("app-2024-01-15.1.log", "OLD")]
              (getBaseNameM "app-2024-01-15.log") (extnameM "app-2024-01-15.log") →
        dirExists [("app-2024-01-15.log", "NEW"), ("app-2024-01-15.1.log", "OLD")]
          (rotatedName (getBaseNameM "app-2024-01-15.log")
            (extnameM "app-2024-01-15.log") j) = true) ∧
    dirLookup (rotateDateBasedFile
        ⟨"logs", "app", RotationTrigger.hybrid, 100, false, 5, 30⟩
        ⟨false, false, 0, "", none, true, true,
          [("app-2024-01-15.log", "NEW"), ("app-2024-01-15.1.log", "OLD")],
          [], []⟩
        "app-2024-01-15.log" 1705276800000).dir "app-2024-01-15.1.log" =
      dirLookup [("app-2024-01-15.log", "NEW"), ("app-2024-01-15.1.log", "OLD")]
        "app-2024-01-15.1.log" :=
  ⟨(rotateDateBasedFile_fresh_suffix
      ⟨"logs", "app", RotationTrigger.hybrid, 100, false, 5, 30⟩
      ⟨false, false, 0, "", none, true, true,
        [("app-2024-01-15.log", "NEW"), ("app-2024-01-15.1.log", "OLD")],
        [], []⟩
      "app-2024-01-15.log" 1705276800000 rfl).1,
    (rotateDateBasedFile_fresh_suffix
      ⟨"logs", "app", RotationTrigger.hybrid, 100, false, 5, 30⟩
      ⟨false, false, 0, "", none, true, true,
        [("app-2024-01-15.log", "NEW"), ("app-2024-01-15.1.log", "OLD")],
        [], []⟩
      "app-2024-01-15.log" 1705276800000 rfl).2
      "app-2024-01-15.1.log" (by decide) (by decide)⟩

/-! ## C6: the maxDays cleanup sweep (cleanupOldFiles) -/

/-- A character the regex wildcard `.` matches (anything except the
JavaScript line terminators). -/
def isRegexDotChar (c : Char) : Bool :=
  c != '\n' && c != '\r' && c.toNat != 0x2028 && c.toNat != 0x2029

/-- The cleanup's base-pattern test
`^${fileNamePattern}-.*${LOG_FILE_EXTENSION}$` — note the `.` of `.log`
is itself a regex wildcard, so this reads: starts with `pattern-`,
then any run of non-newline characters, then one more such character,
then the literal `log`.  (The interpolated `fileNamePattern` is taken to
contain no regex metacharacters.) -/
def matchesBasePattern (pattern name : String) : Bool :=
  let pd := (pattern ++ "-").data
  pd.isPrefixOf name.data &&
    (let r := (name.data.drop pd.length).reverse
     ['g', 'o', 'l'].isPrefixOf r && decide (4 ≤ r.length) &&
       (r.drop 3).all isRegexDotChar)

/-- `listFilesWithPattern` of fs.ts: directory listing filtered by the
pattern. -/
def listFilesWithPattern (d : Dir) (pattern : String) : List String :=
  (listFiles d).filter (matchesBasePattern pattern)

/-- One step of the maxDays sweep's `forEach`: a file whose name has a
`YYYY-MM-DD` match that parses to a date strictly older than `maxDays`
relative to the reference time is deleted; everything else is left
alone. -/
def dateCleanupStep (t : FileTransport) (currentDate : Int) (s : Dir)
    (file : String) : Dir :=
  match findDateMatch file.data with
  | none => s
  | some _ =>
    match extractDateFromFilename file with
    | some fileDate =>
      if isOlderThan fileDate t.maxDays currentDate then dirDelete s file else s
    | none => s

/-- Whether the maxDays sweep deletes `file` (the decision of
`dateCleanupStep`, as a predicate of the name alone). -/
def dateCleanupDeletes (t : FileTransport) (currentDate : Int)
    (file : String) : Bool :=
  match findDateMatch file.data with
  | none => false
  | some _ =>
    match extractDateFromFilename file with
    | some fileDate => isOlderThan fileDate t.maxDays currentDate
    | none => false

/-- Stable descending sort by generation number: the JS
`sort((a, b) => b.number - a.number)`. -/
def sortPairsDesc (l : List (String × Nat)) : List (String × Nat) :=
  l.insertionSort (fun a b => b.2 ≤ a.2)

/-- `FileTransport.cleanupOldFiles`: when `maxDays` is truthy, sweep the
files matching the base pattern and delete the ones with a parseable
embedded date strictly older than `maxDays`; when `maxFiles` is truthy
and the rotation is size or hybrid, additionally delete all but the
`maxFiles` highest-numbered generation files. -/
def cleanupOldFiles (t : FileTransport) (d : Dir) (currentDate : Int) : Dir :=
  let d1 :=
    if t.maxDays ≠ 0 then
      (listFilesWithPattern d t.fileNamePattern).foldl
        (dateCleanupStep t currentDate) d
    else d
  if t.maxFiles ≠ 0 ∧
      (t.rotation = RotationTrigger.size ∨ t.rotation = RotationTrigger.hybrid) then
    let numberedFiles := sortPairsDesc ((listFiles d1).filterMap (fun file =>
      match fileNumberMatch file with
      | some n => some (file, n)
      | none => none))
    (numberedFiles.drop t.maxFiles).foldl (fun s fn => dirDelete s fn.1) d1
  else d1

theorem dirLookup_dateCleanupStep (t : FileTransport) (cur : Int) (s : Dir)
    (f q : String) :
    dirLookup (dateCleanupStep t cur s f) q =
      if f = q ∧ dateCleanupDeletes t cur f = true then none
      else dirLookup s q := by
  unfold dateCleanupStep dateCleanupDeletes
  cases hm : findDateMatch f.data with
  | none =>
    rw [if_neg (fun hcon => Bool.noConfusion hcon.2)]
  | some r =>
    cases he : extractDateFromFilename f with
    | none =>
      rw [if_neg (fun hcon => Bool.noConfusion hcon.2)]
    | some ms =>
      dsimp only
      by_cases hold : isOlderThan ms t.maxDays cur = true
      · rw [if_pos hold, dirLookup_delete]
        by_cases hfq : f = q
        · rw [if_pos hfq, if_pos ⟨hfq, hold⟩]
        · rw [if_neg hfq, if_neg (fun hcon => hfq hcon.1)]
      · have hold' : isOlderThan ms t.maxDays cur = false :=
          Bool.eq_false_iff.mpr hold
        rw [hold']
        simp only [Bool.false_eq_true, if_false]
        rw [if_neg (fun hcon : f = q ∧ False => hcon.2.elim)]

theorem foldl_dateCleanup_lookup (t : FileTransport) (cur : Int) :
    ∀ (files : List String) (s : Dir) (q : String),
      dirLookup (files.foldl (dateCleanupStep t cur) s) q =
        if q ∈ files ∧ dateCleanupDeletes t cur q = true then none
        else dirLookup s q := by
  intro files
  induction files with
  | nil =>
    intro s q
    simp
  | cons f rest ih =>
    intro s q
    rw [List.foldl_cons, ih, dirLookup_dateCleanupStep]
    by_cases h1 : q ∈ rest ∧ dateCleanupDeletes t cur q = true
    · rw [if_pos h1, if_pos ⟨by simp [h1.1], h1.2⟩]
    · rw [if_neg h1]
      by_cases h2 : f = q ∧ dateCleanupDeletes t cur f = true
      · rw [if_pos h2, if_pos ⟨by simp [h2.1.symm], h2.1 ▸ h2.2⟩]
      · rw [if_neg h2]
        rw [if_neg (fun hcon => ?_)]
        rcases List.mem_cons.mp hcon.1 with hqf | hqr
        · exact h2 ⟨hqf.symm, hqf ▸ hcon.2⟩
        · exact h1 ⟨hqr, hcon.2⟩

/-- C6 (counterexample). The claim quantifies over *every* `maxDays`
setting, but `cleanupOldFiles` is guarded by the truthiness of
`this.maxDays`: with `maxDays = 0` (reachable via
`cleanup: { maxDays: 0 }`, since `?? DEFAULT_MAX_DAYS` keeps `0`) the
sweep does not run at all, so a file strictly older than `maxDays` days
survives. -/
theorem cleanupOldFiles_skipped_when_maxDays_zero :
    extractDateFromFilename "app-2020-01-01.log" = some 1577836800000 ∧
    isOlderThan 1577836800000 0 1705276800000 = true ∧
    "app-2020-01-01.log" ∈
      listFilesWithPattern [("app-2020-01-01.log", "x")] "app" ∧
    cleanupOldFiles ⟨"logs", "app", RotationTrigger.date, 10485760, true, 0, 0⟩
        [("app-2020-01-01.log", "x")] 1705276800000 =
      [("app-2020-01-01.log", "x")] := by
  refine ⟨by decide, by decide, by decide, ?_⟩
  rfl

/-- C6 (amended). For every directory listing and every *nonzero*
`maxDays`, the date-mode cleanup sweep deletes all and only the listed
files (those matching the transport's base pattern) whose embedded
`YYYY-MM-DD` date parses and is strictly older than `maxDays` days
relative to the reference time; files whose names have no parseable date
are never deleted by this path, and files the sweep does not delete keep
their content. -/
theorem cleanupOldFiles_maxDays_spec (t : FileTransport) (d : Dir) (cur : Int)
    (hrot : t.rotation = RotationTrigger.date) (hmd : t.maxDays ≠ 0) :
    (∀ q, dirLookup (cleanupOldFiles t d cur) q =
      if q ∈ listFilesWithPattern d t.fileNamePattern ∧
          dateCleanupDeletes t cur q = true
      then none else dirLookup d q) ∧
    (∀ q, dateCleanupDeletes t cur q = true ↔
      ∃ ms, extractDateFromFilename q = some ms ∧
        isOlderThan ms t.maxDays cur = true) := by
  constructor
  · intro q
    have hbranch : ¬(t.maxFiles ≠ 0 ∧
        (t.rotation = RotationTrigger.size ∨
          t.rotation = RotationTrigger.hybrid)) := by
      rw [hrot]
      rintro ⟨-, h | h⟩ <;> exact RotationTrigger.noConfusion h
    unfold cleanupOldFiles
    rw [if_neg hbranch, if_pos hmd, foldl_dateCleanup_lookup]
  · intro q
    unfold dateCleanupDeletes
    cases hm : findDateMatch q.data with
    | none =>
      simp only [Bool.false_eq_true, false_iff]
      rintro ⟨ms, hms, -⟩
      rw [extractDateFromFilename, hm] at hms
      exact Option.noConfusion hms
    | some r =>
      cases he : extractDateFromFilename q with
      | none =>
        simp only [Bool.false_eq_true, false_iff]
        rintro ⟨ms, hms, -⟩
        exact Option.noConfusion hms
      | some ms =>
        constructor
        · intro hold
          exact ⟨ms, rfl, hold⟩
        · rintro ⟨ms', hms', hold'⟩
          rw [Option.some.inj hms']
          exact hold'

/-- C6 (amended, witness): with `maxDays = 30`, a 2020 file is deleted,
a fresh same-pattern file and an unmatched name survive. -/
theorem cleanupOldFiles_maxDays_spec_witness :
    (dirLookup (cleanupOldFiles
        ⟨"logs", "app", RotationTrigger.date, 10485760, true, 0, 30⟩
        [("app-2020-01-01.log", "x"), ("app-2024-01-10.log", "y"),
          ("notes.txt", "z")] 1705276800000) "app-2020-01-01.log" =
      (if "app-2020-01-01.log" ∈ listFilesWithPattern
          [("app-2020-01-01.log", "x"), ("app-2024-01-10.log", "y"),
            ("notes.txt", "z")] "app" ∧
          dateCleanupDeletes
            ⟨"logs", "app", RotationTrigger.date, 10485760, true, 0, 30⟩
            1705276800000 "app-2020-01-01.log" = true
        then none
        else dirLookup [("app-2020-01-01.log", "x"), ("app-2024-01-10.log", "y"),
          ("notes.txt", "z")] "app-2020-01-01.log")) ∧
    (dateCleanupDeletes
        ⟨"logs", "app", RotationTrigger.date, 10485760, true, 0, 30⟩
        1705276800000 "app-2020-01-01.log" = true ↔
      ∃ ms, extractDateFromFilename "app-2020-01-01.log" = some ms ∧
        isOlderThan ms 30 1705276800000 = true) :=
  ⟨(cleanupOldFiles_maxDays_spec
      ⟨"logs", "app", RotationTrigger.date, 10485760, true, 0, 30⟩
      [("app-2020-01-01.log", "x"), ("app-2024-01-10.log", "y"),
        ("notes.txt", "z")] 1705276800000 rfl (by decide)).1
      "app-2020-01-01.log",
    (cleanupOldFiles_maxDays_spec
      ⟨"logs", "app", RotationTrigger.date, 10485760, true, 0, 30⟩
      [("app-2020-01-01.log", "x"), ("app-2024-01-10.log", "y"),
        ("notes.txt", "z")] 1705276800000 rfl (by decide)).2
      "app-2020-01-01.log"⟩
